import Mathlib

/-!
# The HTTP handlers of `server/handlers.go`

A shallow embedding of the four handlers of `registryController`
(`repositoriesHandler`, `tagHandler`, `tagsHandler`, `vulnerabilitiesHandler`)
and the properties of the aggregation pipeline they implement.

Modelling decisions.

* The registry client, the scanner client, `json.Unmarshal`, `json.Marshal` and
  the template set `tmpl` live outside the file. They are taken as arbitrary
  functions of their arguments (fields of `Registry`, `Clair`, `Env`); every
  theorem quantifies over all of them. Within one request a call with the same
  arguments gives the same answer.
* A Go result pair `(value, err)` is an `Except Error value`.
* `http.ResponseWriter` is the record `ResponseWriter`: the first `WriteHeader`
  fixes the status, a `Write` before any `WriteHeader` fixes it to 200, later
  `WriteHeader` calls are ignored, as in `net/http`.
* Every call to an outside collaborator is recorded, in order, in the `calls`
  field of `World`, so that "this call is never made" is a statement about
  the result of a handler.
* The logging statements write to the process log only; they do not touch the
  response or the collaborators and are left out.
-/

namespace Reg

/-! ## Data model -/

/-- Go `error` values are opaque to the handlers: they are only tested against `nil`. -/
abbrev Error := String

/-- Go `time.Time`, as an instant counted from January 1 of year 1, 00:00:00 UTC.
The zero value of the Go type is that instant itself. -/
structure Time where
  sec : Int
  nsec : Nat
deriving DecidableEq, Repr

/-- The zero value of `time.Time`. -/
def Time.zero : Time := ⟨0, 0⟩

instance : Inhabited Time := ⟨Time.zero⟩

/-- The struct `v1Compatibility` (handlers.go, lines 22-25). -/
structure v1Compatibility where
  ID : String
  Created : Time
deriving DecidableEq, Repr

/-- One entry of `m1.History`; the handlers read its field `V1Compatibility` only. -/
structure History where
  V1Compatibility : String
deriving DecidableEq, Repr

/-- The manifest returned by `rc.reg.ManifestV1`; the handlers read its field
`History` only and hand the whole value to the scanner. -/
structure SignedManifest where
  History : List History
deriving DecidableEq, Repr

/-- The struct `Repository` (handlers.go, lines 28-34). The type `V` stands for
`clair.VulnerabilityReport`, whose declaration is outside the file; `default : V`
is its zero value. -/
structure Repository (V : Type) where
  Name : String
  Tag : String
  Created : Time
  URI : String
  VulnerabilityReport : V
deriving DecidableEq, Repr

/-- The struct `AnalysisResult` (handlers.go, lines 37-41). -/
structure AnalysisResult (V : Type) where
  Repositories : List (Repository V)
  RegistryDomain : String
  Name : String
deriving DecidableEq, Repr

/-- The zero value `Repository{}`. -/
def Repository.zero {V : Type} [Inhabited V] : Repository V :=
  { Name := "", Tag := "", Created := Time.zero, URI := "", VulnerabilityReport := default }

/-- The zero value `AnalysisResult{}`. -/
def AnalysisResult.zero {V : Type} : AnalysisResult V :=
  { Repositories := [], RegistryDomain := "", Name := "" }

/-! ## Outside collaborators -/

/-- The registry client `*registry.Registry`: the field `Domain` and the three
methods the handlers call. -/
structure Registry where
  Domain : String
  Catalog : String → Except Error (List String)
  Tags : String → Except Error (List String)
  ManifestV1 : String → String → Except Error SignedManifest

/-- The scanner client `*clair.Clair`: the method `Vulnerabilities(reg, repo, tag, m1)`. -/
structure Clair (V : Type) where
  Vulnerabilities : Registry → String → String → SignedManifest → Except Error V

/-- The struct `registryController` (handlers.go, lines 17-20). A nil `rc.cl` is `none`. -/
structure registryController (V : Type) where
  reg : Registry
  cl : Option (Clair V)

/-- The second argument of `tmpl.ExecuteTemplate`: the handlers pass either an
`AnalysisResult` or a `clair.VulnerabilityReport`. -/
inductive TemplateData (V : Type) where
  | analysis (result : AnalysisResult V)
  | report (result : V)
deriving DecidableEq, Repr

/-- The package-level collaborators: `json.Unmarshal` into a `v1Compatibility`,
`json.Marshal` of a report, and the template set `tmpl`. `ExecuteTemplate name data`
gives the chunks the template writes to the response, in order, and the error it
returns, if any. -/
structure Env (V : Type) where
  Unmarshal : String → Except Error v1Compatibility
  Marshal : V → Except Error String
  ExecuteTemplate : String → TemplateData V → List String × Option Error

/-- A call to an outside collaborator, with its arguments. -/
inductive Call (V : Type) where
  | Catalog (u : String)
  | Tags (repo : String)
  | ManifestV1 (repo tag : String)
  | Unmarshal (data : String)
  | Vulnerabilities (repo tag : String) (m1 : SignedManifest)
  | Marshal (result : V)
  | ExecuteTemplate (name : String) (data : TemplateData V)
deriving DecidableEq, Repr

/-! ## Request and response -/

/-- Look a key up in a Go `map[string]string`; a missing key gives `""`. -/
def lookupStr (m : List (String × String)) (key : String) : String :=
  match m.find? (fun kv => kv.1 == key) with
  | some kv => kv.2
  | none => ""

/-- The request: the route variables `mux.Vars(r)` and the header `r.Header`. -/
structure Request where
  Vars : List (String × String)
  Header : List (String × String)
deriving DecidableEq, Repr

/-- The state of an `http.ResponseWriter`. `status` is `none` until the header is
written; `sent` is the header map as it stood at that moment. -/
structure ResponseWriter where
  header : List (String × String)
  status : Option Nat
  sent : List (String × String)
  body : String
deriving DecidableEq, Repr

/-- The writer a handler is called with. -/
def ResponseWriter.fresh : ResponseWriter :=
  { header := [], status := none, sent := [], body := "" }

/-- The method `w.WriteHeader(code)`: only the first call has an effect. -/
def ResponseWriter.WriteHeader (w : ResponseWriter) (code : Nat) : ResponseWriter :=
  match w.status with
  | some _ => w
  | none => { w with status := some code, sent := w.header }

/-- The method `w.Write(b)`: writes the header with status 200 if none is written yet. -/
def ResponseWriter.Write (w : ResponseWriter) (b : String) : ResponseWriter :=
  let w1 := w.WriteHeader 200
  { w1 with body := w1.body ++ b }

/-- The call `w.Header().Set(key, value)`. -/
def ResponseWriter.HeaderSet (w : ResponseWriter) (key value : String) : ResponseWriter :=
  { w with header := (key, value) :: w.header.filter (fun kv => kv.1 != key) }

/-- The response under construction and the calls made so far, oldest first. -/
structure World (V : Type) where
  w : ResponseWriter
  calls : List (Call V)
deriving DecidableEq, Repr

section Handlers

variable {V : Type}

/-- Record a call to a collaborator. -/
def World.call (s : World V) (c : Call V) : World V :=
  { s with calls := s.calls ++ [c] }

/-- The statement `w.WriteHeader(code)`. -/
def World.WriteHeader (s : World V) (code : Nat) : World V :=
  { s with w := s.w.WriteHeader code }

/-- The statement `fmt.Fprint(w, text)`: one `Write` of the text. -/
def World.Fprint (s : World V) (text : String) : World V :=
  { s with w := s.w.Write text }

/-- The statement `w.Header().Set(key, value)`. -/
def World.HeaderSet (s : World V) (key value : String) : World V :=
  { s with w := s.w.HeaderSet key value }

/-- The call `tmpl.ExecuteTemplate(w, name, data)`: the template writes its chunks
to the response and the error (if any) is handed back. -/
def World.ExecuteTemplate (env : Env V) (s : World V) (name : String)
    (data : TemplateData V) : World V × Option Error :=
  let s1 := s.call (Call.ExecuteTemplate name data)
  let out := env.ExecuteTemplate name data
  ({ s1 with w := out.1.foldl ResponseWriter.Write s1.w }, out.2)

/-- The outcome of a block of a handler: the handler executed `return` in state `s`,
or control goes on in state `s` with the local value `a`. -/
inductive Flow (V : Type) (α : Type) where
  | ret (s : World V)
  | next (s : World V) (a : α)

/-- The loop `for _, h := range m1.History` of `tagsHandler` (lines 157-173) and of
`vulnerabilitiesHandler` (lines 250-264): the body ends in `break`, so the loop
runs at most once. The third argument is the local `createdDate` on entry. -/
def historyLoop (env : Env V) : List History → World V → Time → Flow V Time
  | [], s, createdDate => Flow.next s createdDate
  | h :: _, s, _ =>
    let s1 := s.call (Call.Unmarshal h.V1Compatibility)
    match env.Unmarshal h.V1Compatibility with
    | Except.error _ => Flow.ret (s1.WriteHeader 500)
    | Except.ok comp => Flow.next s1 comp.Created

/-- The local `repoURI` of `tagsHandler` (lines 175-178). -/
def repoURI (domain repo tag : String) : String :=
  let uri := domain ++ "/" ++ repo
  if tag != "latest" then uri ++ (":" ++ tag) else uri

variable [Inhabited V]

/-- The body of the loop `for _, tag := range tags` of `tagsHandler` (lines 144-200). -/
def tagsBody (env : Env V) (rc : registryController V) (repo tag : String)
    (s : World V) (result : AnalysisResult V) : Flow V (AnalysisResult V) :=
  let s1 := s.call (Call.ManifestV1 repo tag)
  match rc.reg.ManifestV1 repo tag with
  | Except.error _ => Flow.ret ((s1.WriteHeader 404).Fprint "Manifest not found")
  | Except.ok m1 =>
    match historyLoop env m1.History s1 Time.zero with
    | Flow.ret s2 => Flow.ret s2
    | Flow.next s2 createdDate =>
      let rp : Repository V :=
        { Repository.zero with
          Name := repo, Tag := tag, URI := repoURI rc.reg.Domain repo tag,
          Created := createdDate }
      match rc.cl with
      | none => Flow.next s2 { result with Repositories := result.Repositories ++ [rp] }
      | some cl =>
        let s3 := s2.call (Call.Vulnerabilities repo tag m1)
        match cl.Vulnerabilities rc.reg repo tag m1 with
        | Except.error _ => Flow.ret (s3.WriteHeader 500)
        | Except.ok vuln =>
          Flow.next s3
            { result with
              Repositories := result.Repositories ++ [{ rp with VulnerabilityReport := vuln }] }

/-- The loop `for _, tag := range tags` of `tagsHandler` (lines 143-201). -/
def tagsLoop (env : Env V) (rc : registryController V) (repo : String) :
    List String → World V → AnalysisResult V → Flow V (AnalysisResult V)
  | [], s, result => Flow.next s result
  | tag :: rest, s, result =>
    match tagsBody env rc repo tag s result with
    | Flow.ret s1 => Flow.ret s1
    | Flow.next s1 result1 => tagsLoop env rc repo rest s1 result1

/-- The handler `repositoriesHandler` (lines 43-83). -/
def repositoriesHandler (env : Env V) (rc : registryController V)
    (w : ResponseWriter) (_r : Request) : World V :=
  let s : World V := { w := w, calls := [] }
  let result : AnalysisResult V := { AnalysisResult.zero with RegistryDomain := rc.reg.Domain }
  let s1 := s.call (Call.Catalog "")
  match rc.reg.Catalog "" with
  | Except.error _ => s1.WriteHeader 500
  | Except.ok repoList =>
    let result1 := repoList.foldl
      (fun (acc : AnalysisResult V) repo =>
        let r1 : Repository V :=
          { Repository.zero with Name := repo, URI := rc.reg.Domain ++ "/" ++ repo }
        { acc with Repositories := acc.Repositories ++ [r1] })
      result
    match s1.ExecuteTemplate env "repositories" (TemplateData.analysis result1) with
    | (s2, some _) => s2.WriteHeader 500
    | (s2, none) => s2

/-- The handler `tagHandler` (lines 85-110). -/
def tagHandler (_env : Env V) (_rc : registryController V)
    (w : ResponseWriter) (r : Request) : World V :=
  let s : World V := { w := w, calls := [] }
  let repo := lookupStr r.Vars "repo"
  let tag := lookupStr r.Vars "tag"
  if repo = "" then (s.WriteHeader 404).Fprint "Empty repo"
  else if tag = "" then (s.WriteHeader 404).Fprint "Empty tag"
  else s.Fprint ("Repo: " ++ repo ++ " Tag: " ++ tag ++ " ")

/-- The handler `tagsHandler` (lines 112-213). -/
def tagsHandler (env : Env V) (rc : registryController V)
    (w : ResponseWriter) (r : Request) : World V :=
  let s : World V := { w := w, calls := [] }
  let repo := lookupStr r.Vars "repo"
  if repo = "" then (s.WriteHeader 404).Fprint "Empty repo"
  else
    let s1 := s.call (Call.Tags repo)
    match rc.reg.Tags repo with
    | Except.error _ => (s1.WriteHeader 404).Fprint "No tags found"
    | Except.ok tags =>
      let result : AnalysisResult V :=
        { AnalysisResult.zero with RegistryDomain := rc.reg.Domain, Name := repo }
      match tagsLoop env rc repo tags s1 result with
      | Flow.ret s2 => s2
      | Flow.next s2 result1 =>
        match s2.ExecuteTemplate env "tags" (TemplateData.analysis result1) with
        | (s3, some _) => s3.WriteHeader 500
        | (s3, none) => s3

/-- The handler `vulnerabilitiesHandler` (lines 215-308). -/
def vulnerabilitiesHandler (env : Env V) (rc : registryController V)
    (w : ResponseWriter) (r : Request) : World V :=
  let s : World V := { w := w, calls := [] }
  let repo := lookupStr r.Vars "repo"
  let tag := lookupStr r.Vars "tag"
  if repo = "" then (s.WriteHeader 404).Fprint "Empty repo"
  else if tag = "" then (s.WriteHeader 404).Fprint "Empty tag"
  else
    let s1 := s.call (Call.ManifestV1 repo tag)
    match rc.reg.ManifestV1 repo tag with
    | Except.error _ => (s1.WriteHeader 404).Fprint "Manifest not found"
    | Except.ok m1 =>
      match historyLoop env m1.History s1 Time.zero with
      | Flow.ret s2 => s2
      | Flow.next s2 _ =>
        let scanned : Flow V V :=
          match rc.cl with
          | none => Flow.next s2 default
          | some cl =>
            let s3 := s2.call (Call.Vulnerabilities repo tag m1)
            match cl.Vulnerabilities rc.reg repo tag m1 with
            | Except.error _ => Flow.ret (s3.WriteHeader 500)
            | Except.ok vuln => Flow.next s3 vuln
        match scanned with
        | Flow.ret s4 => s4
        | Flow.next s4 result =>
          if lookupStr r.Header "Accept-Encoding" = "application/json" then
            let s5 := s4.call (Call.Marshal result)
            match env.Marshal result with
            | Except.error _ => s5.WriteHeader 500
            | Except.ok js => (s5.HeaderSet "Content-Type" "application/json").Fprint js
          else
            match s4.ExecuteTemplate env "vulns" (TemplateData.report result) with
            | (s5, some _) => s5.WriteHeader 500
            | (s5, none) => s5

end Handlers

/-! ## The loop of `tagsHandler` as a function of the collaborators' answers -/

section Summary

variable {V : Type} [Inhabited V]

/-- What one round of the loop of `tagsHandler` does for `tag`: the calls it makes,
and either the record it appends or the status and body it answers with. -/
def tagRun (env : Env V) (rc : registryController V) (repo tag : String) :
    List (Call V) × Except (Nat × String) (Repository V) :=
  match rc.reg.ManifestV1 repo tag with
  | Except.error _ => ([Call.ManifestV1 repo tag], Except.error (404, "Manifest not found"))
  | Except.ok m1 =>
    let decoded : List (Call V) × Except (Nat × String) Time :=
      match m1.History with
      | [] => ([], Except.ok Time.zero)
      | h :: _ =>
        match env.Unmarshal h.V1Compatibility with
        | Except.error _ => ([Call.Unmarshal h.V1Compatibility], Except.error (500, ""))
        | Except.ok comp => ([Call.Unmarshal h.V1Compatibility], Except.ok comp.Created)
    match decoded with
    | (cs, Except.error e) => (Call.ManifestV1 repo tag :: cs, Except.error e)
    | (cs, Except.ok createdDate) =>
      let rp : Repository V :=
        { Name := repo, Tag := tag, Created := createdDate,
          URI := repoURI rc.reg.Domain repo tag, VulnerabilityReport := default }
      match rc.cl with
      | none => (Call.ManifestV1 repo tag :: cs, Except.ok rp)
      | some cl =>
        match cl.Vulnerabilities rc.reg repo tag m1 with
        | Except.error _ =>
          (Call.ManifestV1 repo tag :: cs ++ [Call.Vulnerabilities repo tag m1],
            Except.error (500, ""))
        | Except.ok vuln =>
          (Call.ManifestV1 repo tag :: cs ++ [Call.Vulnerabilities repo tag m1],
            Except.ok { rp with VulnerabilityReport := vuln })

/-- What the whole loop of `tagsHandler` does for a tag list: the rounds run in
order and the first one that answers ends the loop. -/
def loopRun (env : Env V) (rc : registryController V) (repo : String) :
    List String → List (Call V) × Except (Nat × String) (List (Repository V))
  | [] => ([], Except.ok [])
  | tag :: rest =>
    match tagRun env rc repo tag with
    | (cs, Except.error e) => (cs, Except.error e)
    | (cs, Except.ok rp) =>
      match loopRun env rc repo rest with
      | (cs2, Except.error e) => (cs ++ cs2, Except.error e)
      | (cs2, Except.ok rps) => (cs ++ cs2, Except.ok (rp :: rps))

/-- The tag round succeeds: the manifest is fetched, the first history entry (if
any) decodes, and the scan (if a scanner is configured) succeeds. -/
def tagSucceeds (env : Env V) (rc : registryController V) (repo tag : String) : Bool :=
  match rc.reg.ManifestV1 repo tag with
  | Except.error _ => false
  | Except.ok m1 =>
    (match m1.History with
      | [] => true
      | h :: _ => (env.Unmarshal h.V1Compatibility).toBool) &&
    (match rc.cl with
      | none => true
      | some cl => (cl.Vulnerabilities rc.reg repo tag m1).toBool)

/-- The calls a round of the loop of `tagsHandler` can make; a scanner call only
when `scanner` is set. -/
def Call.inLoop (scanner : Bool) : Call V → Bool
  | Call.ManifestV1 _ _ => true
  | Call.Unmarshal _ => true
  | Call.Vulnerabilities _ _ _ => scanner
  | _ => false

/-- The string `s` ends in the string `t`. -/
def endsIn (s t : String) : Prop := t.data <:+ s.data

instance (s t : String) : Decidable (endsIn s t) :=
  inferInstanceAs (Decidable (t.data <:+ s.data))

end Summary

/-! ## A concrete registry -/

section Scenario

/-- A registry at "registry.example.com" holding "library/alpine" with the tags
"latest" and "3.18", "library/broken" and "library/garbled", each with one tag
that has no manifest and one whose first history entry does not decode, a
repository named "library/alpine:latest" with the tag "latest", and "library/bare"
whose only tag "bare" has a manifest with an empty history. -/
def exampleRegistry : Registry :=
  { Domain := "registry.example.com"
    Catalog := fun _ => Except.ok ["library/alpine", "library/broken"]
    Tags := fun repo =>
      if repo = "library/alpine" then Except.ok ["latest", "3.18"]
      else if repo = "library/broken" then Except.ok ["1.0", "missing", "garbled"]
      else if repo = "library/garbled" then Except.ok ["1.0", "garbled", "missing"]
      else if repo = "library/alpine:latest" then Except.ok ["latest"]
      else if repo = "library/bare" then Except.ok ["bare"]
      else Except.error "repository unknown"
    ManifestV1 := fun _ tag =>
      if tag = "missing" then Except.error "manifest unknown"
      else if tag = "garbled" then Except.ok { History := [⟨"garbled"⟩, ⟨"layer-0"⟩] }
      else if tag = "bare" then Except.ok { History := [] }
      else Except.ok { History := [⟨"layer-1"⟩, ⟨"garbled"⟩] } }

/-- A decoder that rejects the blob "garbled" and reads any other blob as created
at second 1700000000. -/
def exampleUnmarshal (data : String) : Except Error v1Compatibility :=
  if data = "garbled" then Except.error "invalid character"
  else Except.ok { ID := data, Created := ⟨1700000000, 0⟩ }

/-- Reports are lists of vulnerability names; templates write the template name. -/
def exampleEnv : Env (List String) :=
  { Unmarshal := exampleUnmarshal
    Marshal := fun v => Except.ok (String.intercalate "," v)
    ExecuteTemplate := fun name _ => ([name], none) }

/-- A scanner that finds one vulnerability in every image but "3.18", which it
cannot scan. -/
def exampleClair : Clair (List String) :=
  { Vulnerabilities := fun _ _ tag _ =>
      if tag = "3.18" then Except.error "scan failed" else Except.ok ["CVE-2017-0001"] }

/-- The collaborators of `exampleEnv` with a `json.Marshal` that fails. -/
def exampleEnvNoJSON : Env (List String) :=
  { exampleEnv with Marshal := fun _ => Except.error "json: unsupported value" }

/-- The controller without a scanner. -/
def exampleRc : registryController (List String) :=
  { reg := exampleRegistry, cl := none }

/-- The controller with the scanner. -/
def exampleRcScan : registryController (List String) :=
  { reg := exampleRegistry, cl := some exampleClair }

/-- A request with the given route variables and Accept-Encoding header. -/
def exampleRequest (repo tag accept : String) : Request :=
  { Vars := [("repo", repo), ("tag", tag)], Header := [("Accept-Encoding", accept)] }

end Scenario

/-! ## Lemmas: the response writer, one round, the loop, the handler -/

section Lemmas

variable {V : Type}

/-- Writing the empty text after the header is written changes nothing. -/
theorem Write_empty_after_WriteHeader (w : ResponseWriter) (code : Nat) :
    (w.WriteHeader code).Write "" = w.WriteHeader code := by
  cases w with
  | mk header status sent body =>
    cases status <;> simp [ResponseWriter.WriteHeader, ResponseWriter.Write]

/-- The response after `WriteHeader(code)` and one `Write` on a fresh writer. -/
theorem fresh_WriteHeader_Write (code : Nat) (b : String) :
    (ResponseWriter.fresh.WriteHeader code).Write b =
      { header := [], status := some code, sent := [], body := b } := by
  simp [ResponseWriter.fresh, ResponseWriter.WriteHeader, ResponseWriter.Write]

/-- A round succeeds when its manifest is fetched, the first history entry (if any)
decodes and the scan (if a scanner is configured) returns a report. -/
theorem tagSucceeds_of_steps (env : Env V) (rc : registryController V) (repo tag : String)
    (m1 : SignedManifest) (hm : rc.reg.ManifestV1 repo tag = Except.ok m1)
    (hdec : ∀ h0 rest, m1.History = h0 :: rest →
      ∃ comp, env.Unmarshal h0.V1Compatibility = Except.ok comp)
    (hscan : ∀ cl, rc.cl = some cl →
      ∃ vuln, cl.Vulnerabilities rc.reg repo tag m1 = Except.ok vuln) :
    tagSucceeds env rc repo tag = true := by
  unfold tagSucceeds
  rcases hh : m1.History with _ | ⟨h0, rest⟩
  · cases hc : rc.cl with
    | none => simp [hm, hh]
    | some cl =>
      obtain ⟨vuln, hv⟩ := hscan cl hc
      simp [hm, hh, hv, Except.toBool]
  · obtain ⟨comp, hu⟩ := hdec h0 rest hh
    cases hc : rc.cl with
    | none => simp [hm, hh, hu, Except.toBool]
    | some cl =>
      obtain ⟨vuln, hv⟩ := hscan cl hc
      simp [hm, hh, hu, hv, Except.toBool]

variable [Inhabited V]

/-- One round of the loop, in terms of `tagRun`. -/
theorem tagsBody_eq (env : Env V) (rc : registryController V) (repo tag : String)
    (s : World V) (result : AnalysisResult V) :
    tagsBody env rc repo tag s result =
      match tagRun env rc repo tag with
      | (cs, Except.error e) =>
        Flow.ret { w := (s.w.WriteHeader e.1).Write e.2, calls := s.calls ++ cs }
      | (cs, Except.ok rp) =>
        Flow.next { w := s.w, calls := s.calls ++ cs }
          { result with Repositories := result.Repositories ++ [rp] } := by
  unfold tagsBody tagRun
  cases hm : rc.reg.ManifestV1 repo tag with
  | error e => simp [World.call, World.WriteHeader, World.Fprint]
  | ok m1 =>
    cases hh : m1.History with
    | nil =>
      cases hc : rc.cl with
      | none => simp [hh, historyLoop, World.call, Repository.zero]
      | some cl =>
        cases hv : cl.Vulnerabilities rc.reg repo tag m1 <;>
          simp [hv, hh, historyLoop, World.call, World.WriteHeader, Repository.zero,
            Write_empty_after_WriteHeader]
    | cons h rest =>
      cases hu : env.Unmarshal h.V1Compatibility with
      | error e =>
        simp [hh, historyLoop, hu, World.call, World.WriteHeader, Write_empty_after_WriteHeader]
      | ok comp =>
        cases hc : rc.cl with
        | none => simp [hh, historyLoop, hu, World.call, Repository.zero]
        | some cl =>
          cases hv : cl.Vulnerabilities rc.reg repo tag m1 <;>
            simp [hv, hh, historyLoop, hu, World.call, World.WriteHeader, Repository.zero,
              Write_empty_after_WriteHeader]

/-- The loop, in terms of `loopRun`. -/
theorem tagsLoop_eq (env : Env V) (rc : registryController V) (repo : String)
    (tags : List String) (s : World V) (result : AnalysisResult V) :
    tagsLoop env rc repo tags s result =
      match loopRun env rc repo tags with
      | (cs, Except.error e) =>
        Flow.ret { w := (s.w.WriteHeader e.1).Write e.2, calls := s.calls ++ cs }
      | (cs, Except.ok rps) =>
        Flow.next { w := s.w, calls := s.calls ++ cs }
          { result with Repositories := result.Repositories ++ rps } := by
  induction tags generalizing s result with
  | nil => simp [tagsLoop, loopRun]
  | cons tag rest ih =>
    rw [tagsLoop, tagsBody_eq, loopRun]
    rcases hd : tagRun env rc repo tag with ⟨cs, e | rp⟩
    · simp
    · simp only [ih]
      rcases hl : loopRun env rc repo rest with ⟨cs2, e | rps⟩ <;> simp

/-- The facts about a record appended by a round of the loop. -/
theorem tagRun_ok (env : Env V) (rc : registryController V) (repo tag : String)
    (rp : Repository V) (h : (tagRun env rc repo tag).2 = Except.ok rp) :
    rp.Name = repo ∧ rp.Tag = tag ∧ rp.URI = repoURI rc.reg.Domain repo tag ∧
    (rc.cl = none → rp.VulnerabilityReport = default) ∧
    ∃ m1, rc.reg.ManifestV1 repo tag = Except.ok m1 ∧
      (m1.History = [] → rp.Created = Time.zero) ∧
      (∀ h0 rest, m1.History = h0 :: rest →
        ∃ comp, env.Unmarshal h0.V1Compatibility = Except.ok comp ∧
          rp.Created = comp.Created) ∧
      (∀ cl, rc.cl = some cl →
        cl.Vulnerabilities rc.reg repo tag m1 = Except.ok rp.VulnerabilityReport) := by
  unfold tagRun at h
  cases hm : rc.reg.ManifestV1 repo tag with
  | error e => simp [hm] at h
  | ok m1 =>
    rcases hh : m1.History with _ | ⟨h0, rest⟩
    · cases hc : rc.cl with
      | none =>
        simp [hm, hh, hc] at h
        subst h
        simp [hh]
      | some cl =>
        cases hv : cl.Vulnerabilities rc.reg repo tag m1 with
        | error e => simp [hm, hh, hc, hv] at h
        | ok vuln =>
          simp [hm, hh, hc, hv] at h
          subst h
          simp [hh, hv]
    · cases hu : env.Unmarshal h0.V1Compatibility with
      | error e => simp [hm, hh, hu] at h
      | ok comp =>
        cases hc : rc.cl with
        | none =>
          simp [hm, hh, hc, hu] at h
          subst h
          simp [hh]
          exact ⟨comp, hu, rfl⟩
        | some cl =>
          cases hv : cl.Vulnerabilities rc.reg repo tag m1 with
          | error e => simp [hm, hh, hc, hu, hv] at h
          | ok vuln =>
            simp [hm, hh, hc, hu, hv] at h
            subst h
            simp [hh, hv]
            exact ⟨comp, hu, rfl⟩

/-- A round whose three steps succeed appends a record. -/
theorem tagRun_ok_of_tagSucceeds (env : Env V) (rc : registryController V) (repo tag : String)
    (h : tagSucceeds env rc repo tag = true) :
    ∃ rp, (tagRun env rc repo tag).2 = Except.ok rp := by
  unfold tagSucceeds at h
  unfold tagRun
  cases hm : rc.reg.ManifestV1 repo tag with
  | error e => simp [hm] at h
  | ok m1 =>
    rcases hh : m1.History with _ | ⟨h0, rest⟩
    · cases hc : rc.cl with
      | none => simp [hh]
      | some cl =>
        cases hv : cl.Vulnerabilities rc.reg repo tag m1 with
        | error e => simp [hm, hh, hc, hv, Except.toBool] at h
        | ok vuln => simp [hh, hv]
    · cases hu : env.Unmarshal h0.V1Compatibility with
      | error e => simp [hm, hh, hu, Except.toBool] at h
      | ok comp =>
        cases hc : rc.cl with
        | none => simp [hh, hu]
        | some cl =>
          cases hv : cl.Vulnerabilities rc.reg repo tag m1 with
          | error e => simp [hm, hh, hc, hu, hv, Except.toBool] at h
          | ok vuln => simp [hh, hu, hv]

/-- A round that answers does so with one of two responses, and for a reason. -/
theorem tagRun_error (env : Env V) (rc : registryController V) (repo tag : String)
    (e : Nat × String) (h : (tagRun env rc repo tag).2 = Except.error e) :
    tagSucceeds env rc repo tag = false ∧
    ((e = (404, "Manifest not found") ∧ ∃ err, rc.reg.ManifestV1 repo tag = Except.error err) ∨
     (e = (500, "") ∧ ∃ m1, rc.reg.ManifestV1 repo tag = Except.ok m1)) := by
  unfold tagRun at h
  unfold tagSucceeds
  cases hm : rc.reg.ManifestV1 repo tag with
  | error err =>
    simp [hm] at h
    simp [← h]
  | ok m1 =>
    rcases hh : m1.History with _ | ⟨h0, rest⟩
    · cases hc : rc.cl with
      | none => simp [hm, hh, hc] at h
      | some cl =>
        cases hv : cl.Vulnerabilities rc.reg repo tag m1 with
        | error err =>
          simp [hm, hh, hc, hv] at h
          simp [← h, hh, hv, Except.toBool]
        | ok vuln => simp [hm, hh, hc, hv] at h
    · cases hu : env.Unmarshal h0.V1Compatibility with
      | error err =>
        simp [hm, hh, hu] at h
        simp [← h, hh, hu, Except.toBool]
      | ok comp =>
        cases hc : rc.cl with
        | none => simp [hm, hh, hc, hu] at h
        | some cl =>
          cases hv : cl.Vulnerabilities rc.reg repo tag m1 with
          | error err =>
            simp [hm, hh, hc, hu, hv] at h
            simp [← h, hh, hu, hv, Except.toBool]
          | ok vuln => simp [hm, hh, hc, hu, hv] at h

/-- A round calls the registry, the decoder and (if configured) the scanner only. -/
theorem tagRun_calls (env : Env V) (rc : registryController V) (repo tag : String) :
    ∀ c ∈ (tagRun env rc repo tag).1, Call.inLoop rc.cl.isSome c = true := by
  unfold tagRun
  cases hm : rc.reg.ManifestV1 repo tag with
  | error err => simp [Call.inLoop]
  | ok m1 =>
    rcases hh : m1.History with _ | ⟨h0, rest⟩
    · cases hc : rc.cl with
      | none => simp [hh, Call.inLoop]
      | some cl =>
        cases hv : cl.Vulnerabilities rc.reg repo tag m1 <;> simp [hh, hv, Call.inLoop]
    · cases hu : env.Unmarshal h0.V1Compatibility with
      | error err => simp [hh, hu, Call.inLoop]
      | ok comp =>
        cases hc : rc.cl with
        | none => simp [hh, hu, Call.inLoop]
        | some cl =>
          cases hv : cl.Vulnerabilities rc.reg repo tag m1 <;> simp [hh, hu, hv, Call.inLoop]

/-- A round whose manifest fetch fails answers 404 "Manifest not found". -/
theorem tagRun_manifest_error (env : Env V) (rc : registryController V) (repo tag : String)
    (err : Error) (hm : rc.reg.ManifestV1 repo tag = Except.error err) :
    (tagRun env rc repo tag).2 = Except.error (404, "Manifest not found") := by
  simp [tagRun, hm]

/-- A round whose first history entry does not decode answers 500 with no body. -/
theorem tagRun_decode_error (env : Env V) (rc : registryController V) (repo tag : String)
    (m1 : SignedManifest) (h0 : History) (rest : List History) (err : Error)
    (hm : rc.reg.ManifestV1 repo tag = Except.ok m1) (hh : m1.History = h0 :: rest)
    (hu : env.Unmarshal h0.V1Compatibility = Except.error err) :
    (tagRun env rc repo tag).2 = Except.error (500, "") := by
  simp [tagRun, hm, hh, hu]

/-- A round whose scan fails answers 500 with no body. -/
theorem tagRun_scan_error (env : Env V) (rc : registryController V) (repo tag : String)
    (m1 : SignedManifest) (cl : Clair V) (err : Error)
    (hm : rc.reg.ManifestV1 repo tag = Except.ok m1)
    (hd : ∀ h0 rest, m1.History = h0 :: rest →
      ∃ comp, env.Unmarshal h0.V1Compatibility = Except.ok comp)
    (hc : rc.cl = some cl)
    (hv : cl.Vulnerabilities rc.reg repo tag m1 = Except.error err) :
    (tagRun env rc repo tag).2 = Except.error (500, "") := by
  rcases hh : m1.History with _ | ⟨h0, rest⟩
  · simp [tagRun, hm, hh, hc, hv]
  · obtain ⟨comp, hu⟩ := hd h0 rest hh
    simp [tagRun, hm, hh, hu, hc, hv]

/-- On success the loop has built one record per tag, in the order of the tags. -/
theorem loopRun_ok (env : Env V) (rc : registryController V) (repo : String) :
    ∀ (tags : List String) (rps : List (Repository V)),
      (loopRun env rc repo tags).2 = Except.ok rps →
      List.Forall₂ (fun tag rp => (tagRun env rc repo tag).2 = Except.ok rp) tags rps
  | [], rps, h => by
    simp [loopRun] at h
    subst h
    exact List.Forall₂.nil
  | tag :: rest, rps, h => by
    rw [loopRun] at h
    rcases hd : tagRun env rc repo tag with ⟨cs, e | rp⟩
    · simp [hd] at h
    · rcases hl : loopRun env rc repo rest with ⟨cs2, e | rps2⟩
      · simp [hd, hl] at h
      · simp [hd, hl] at h
        subst h
        exact List.Forall₂.cons (by simp [hd]) (loopRun_ok env rc repo rest rps2 (by simp [hl]))

/-- The loop succeeds when every round does. -/
theorem loopRun_ok_of_all (env : Env V) (rc : registryController V) (repo : String) :
    ∀ (tags : List String), (∀ t ∈ tags, tagSucceeds env rc repo t = true) →
      ∃ rps, (loopRun env rc repo tags).2 = Except.ok rps
  | [], _ => ⟨[], by simp [loopRun]⟩
  | tag :: rest, h => by
    obtain ⟨rp, hrp⟩ := tagRun_ok_of_tagSucceeds env rc repo tag (h tag (by simp))
    obtain ⟨rps, hrps⟩ := loopRun_ok_of_all env rc repo rest (fun t ht => h t (by simp [ht]))
    refine ⟨rp :: rps, ?_⟩
    rw [loopRun]
    rcases hd : tagRun env rc repo tag with ⟨cs, e | rp1⟩
    · simp [hd] at hrp
    · rcases hl : loopRun env rc repo rest with ⟨cs2, e | rps2⟩
      · simp [hl] at hrps
      · simp [hd] at hrp
        simp [hl] at hrps
        simp [hrp, hrps]

/-- The first round that answers decides the answer of the loop. -/
theorem loopRun_first_error (env : Env V) (rc : registryController V) (repo : String)
    (tag : String) (post : List String) (e : Nat × String)
    (he : (tagRun env rc repo tag).2 = Except.error e) :
    ∀ (pre : List String), (∀ t ∈ pre, tagSucceeds env rc repo t = true) →
      (loopRun env rc repo (pre ++ tag :: post)).2 = Except.error e
  | [], _ => by
    rcases hd : tagRun env rc repo tag with ⟨cs, e1 | rp⟩
    · simp [hd] at he
      simp [loopRun, hd, he]
    · simp [hd] at he
  | t :: pre, h => by
    obtain ⟨rp, hrp⟩ := tagRun_ok_of_tagSucceeds env rc repo t (h t (by simp))
    have ih := loopRun_first_error env rc repo tag post e he pre (fun u hu => h u (by simp [hu]))
    rw [List.cons_append, loopRun]
    rcases hd : tagRun env rc repo t with ⟨cs, e1 | rp1⟩
    · simp [hd] at hrp
    · rcases hl : loopRun env rc repo (pre ++ tag :: post) with ⟨cs2, e2 | rps2⟩
      · simp [hl] at ih
        simp [ih]
      · simp [hl] at ih

/-- An answer of the loop is one of the two error responses. -/
theorem loopRun_error (env : Env V) (rc : registryController V) (repo : String) :
    ∀ (tags : List String) (e : Nat × String),
      (loopRun env rc repo tags).2 = Except.error e →
      e = (404, "Manifest not found") ∨ e = (500, "")
  | [], e, h => by simp [loopRun] at h
  | tag :: rest, e, h => by
    rw [loopRun] at h
    rcases hd : tagRun env rc repo tag with ⟨cs, e1 | rp⟩
    · simp [hd] at h
      subst h
      rcases (tagRun_error env rc repo tag e1 (by simp [hd])).2 with h1 | h1
      · exact Or.inl h1.1
      · exact Or.inr h1.1
    · rcases hl : loopRun env rc repo rest with ⟨cs2, e2 | rps2⟩
      · simp [hd, hl] at h
        subst h
        exact loopRun_error env rc repo rest e2 (by simp [hl])
      · simp [hd, hl] at h

/-- The loop answers when some round fails. -/
theorem loopRun_error_of_mem (env : Env V) (rc : registryController V) (repo : String) :
    ∀ (tags : List String) (tag : String), tag ∈ tags →
      tagSucceeds env rc repo tag = false →
      ∃ e, (loopRun env rc repo tags).2 = Except.error e
  | [], tag, hmem, _ => by simp at hmem
  | t :: rest, tag, hmem, hf => by
    rw [loopRun]
    rcases hd : tagRun env rc repo t with ⟨cs, e1 | rp⟩
    · exact ⟨e1, rfl⟩
    · rcases List.mem_cons.1 hmem with rfl | hin
      · exfalso
        rcases hs : tagSucceeds env rc repo tag with _ | _
        · have hall := loopRun_ok env rc repo [tag] [rp] (by simp [loopRun, hd])
          have := tagRun_ok env rc repo tag rp (by simp [hd])
          obtain ⟨-, -, -, -, m1, hm, -, hdec, hscan⟩ := this
          unfold tagSucceeds at hs
          rcases hh : m1.History with _ | ⟨h0, tl⟩
          · cases hc : rc.cl with
            | none => simp [hm, hh, hc] at hs
            | some cl => simp [hm, hh, hc, hscan cl hc, Except.toBool] at hs
          · obtain ⟨comp, hu, -⟩ := hdec h0 tl hh
            cases hc : rc.cl with
            | none => simp [hm, hh, hc, hu, Except.toBool] at hs
            | some cl => simp [hm, hh, hc, hu, hscan cl hc, Except.toBool] at hs
        · rw [hs] at hf
          cases hf
      · obtain ⟨e, he⟩ := loopRun_error_of_mem env rc repo rest tag hin hf
        rcases hl : loopRun env rc repo rest with ⟨cs2, e2 | rps2⟩
        · exact ⟨e2, rfl⟩
        · simp [hl] at he

/-- The loop calls the registry, the decoder and (if configured) the scanner only. -/
theorem loopRun_calls (env : Env V) (rc : registryController V) (repo : String) :
    ∀ (tags : List String), ∀ c ∈ (loopRun env rc repo tags).1,
      Call.inLoop rc.cl.isSome c = true
  | [], c, h => by simp [loopRun] at h
  | tag :: rest, c, h => by
    rw [loopRun] at h
    have h1 := tagRun_calls env rc repo tag
    have h2 := loopRun_calls env rc repo rest
    rcases hd : tagRun env rc repo tag with ⟨cs, e1 | rp⟩
    · simp only [hd] at h h1
      exact h1 c h
    · rcases hl : loopRun env rc repo rest with ⟨cs2, e2 | rps2⟩ <;>
        simp only [hd, hl, List.mem_append] at h h1 h2 <;>
        rcases h with h | h
      · exact h1 c h
      · exact h2 c h
      · exact h1 c h
      · exact h2 c h

/-- The summary of a round reads `env` through `Unmarshal` only. -/
theorem tagRun_congr (env env2 : Env V) (rc : registryController V) (repo tag : String)
    (h : env2.Unmarshal = env.Unmarshal) :
    tagRun env2 rc repo tag = tagRun env rc repo tag := by
  unfold tagRun
  rw [h]

/-- The summary of the loop reads `env` through `Unmarshal` only. -/
theorem loopRun_congr (env env2 : Env V) (rc : registryController V) (repo : String)
    (h : env2.Unmarshal = env.Unmarshal) :
    ∀ tags : List String, loopRun env2 rc repo tags = loopRun env rc repo tags
  | [] => rfl
  | tag :: rest => by
    rw [loopRun, loopRun, tagRun_congr env env2 rc repo tag h,
      loopRun_congr env env2 rc repo h rest]

/-- The handler `tagsHandler` on a request with a repository whose tag list is fetched. -/
theorem tagsHandler_eq (env : Env V) (rc : registryController V) (r : Request)
    (tags : List String) (hrepo : lookupStr r.Vars "repo" ≠ "")
    (htags : rc.reg.Tags (lookupStr r.Vars "repo") = Except.ok tags) :
    tagsHandler env rc ResponseWriter.fresh r =
      match loopRun env rc (lookupStr r.Vars "repo") tags with
      | (cs, Except.error e) =>
        { w := { header := [], status := some e.1, sent := [], body := e.2 },
          calls := Call.Tags (lookupStr r.Vars "repo") :: cs }
      | (cs, Except.ok rps) =>
        let data : TemplateData V := TemplateData.analysis
          { Repositories := rps, RegistryDomain := rc.reg.Domain,
            Name := lookupStr r.Vars "repo" }
        let out := env.ExecuteTemplate "tags" data
        let w1 := out.1.foldl ResponseWriter.Write ResponseWriter.fresh
        { w := match out.2 with
            | some _ => w1.WriteHeader 500
            | none => w1,
          calls := Call.Tags (lookupStr r.Vars "repo") :: cs ++
            [Call.ExecuteTemplate "tags" data] } := by
  unfold tagsHandler
  simp only [hrepo, if_false, htags, tagsLoop_eq]
  rcases hl : loopRun env rc (lookupStr r.Vars "repo") tags with ⟨cs, e | rps⟩
  · simp [World.call, fresh_WriteHeader_Write]
  · simp only [World.ExecuteTemplate, World.call, AnalysisResult.zero, List.nil_append]
    cases env.ExecuteTemplate "tags" (TemplateData.analysis
        { Repositories := rps, RegistryDomain := rc.reg.Domain,
          Name := lookupStr r.Vars "repo" }) with
    | mk chunks err => cases err <;> simp [World.WriteHeader]

/-- What `tagsHandler` hands to a template: only the full record list of a tag list
whose rounds all succeeded, and only to the template "tags". -/
theorem tagsHandler_template_data (env : Env V) (rc : registryController V) (r : Request)
    (name : String) (data : TemplateData V)
    (h : Call.ExecuteTemplate name data ∈ (tagsHandler env rc ResponseWriter.fresh r).calls) :
    ∃ tags rps, rc.reg.Tags (lookupStr r.Vars "repo") = Except.ok tags ∧
      (loopRun env rc (lookupStr r.Vars "repo") tags).2 = Except.ok rps ∧
      name = "tags" ∧
      data = TemplateData.analysis
        { Repositories := rps, RegistryDomain := rc.reg.Domain,
          Name := lookupStr r.Vars "repo" } := by
  by_cases hrepo : lookupStr r.Vars "repo" = ""
  · simp [tagsHandler, hrepo, World.WriteHeader, World.Fprint] at h
  · cases htags : rc.reg.Tags (lookupStr r.Vars "repo") with
    | error e =>
      simp [tagsHandler, hrepo, htags, World.WriteHeader, World.Fprint, World.call] at h
    | ok tags =>
      rw [tagsHandler_eq env rc r tags hrepo htags] at h
      have hc := loopRun_calls env rc (lookupStr r.Vars "repo") tags
      rcases hl : loopRun env rc (lookupStr r.Vars "repo") tags with ⟨cs, e | rps⟩
      · simp only [hl, List.mem_cons] at h hc
        rcases h with h | h
        · cases h
        · have := hc _ h
          simp [Call.inLoop] at this
      · simp only [hl, List.mem_cons, List.mem_append, List.cons_append, List.mem_singleton]
          at h hc
        rcases h with h | h | h
        · cases h
        · have := hc _ h
          simp [Call.inLoop] at this
        · rcases h with h | h
          · injection h with h1 h2
            exact ⟨tags, rps, rfl, by simp [hl], h1, h2⟩
          · cases h

/-- The loop of `repositoriesHandler` appends one record per catalog entry. -/
theorem repositories_foldl (domain : String) (repoList : List String)
    (init : AnalysisResult V) :
    repoList.foldl
      (fun (acc : AnalysisResult V) repo =>
        { acc with Repositories := acc.Repositories ++
            [({ Repository.zero with Name := repo, URI := domain ++ "/" ++ repo } :
              Repository V)] })
      init =
    { init with Repositories := init.Repositories ++
        repoList.map (fun repo =>
          ({ Repository.zero with Name := repo, URI := domain ++ "/" ++ repo } :
            Repository V)) } := by
  induction repoList generalizing init with
  | nil => simp
  | cons repo rest ih => simp [ih]

/-- A list without the character `c` that ends `d ++ c :: r` ends `r`. -/
theorem suffix_of_suffix_append_cons {α : Type} (c : α) (t r : List α) (hc : c ∉ t) :
    ∀ d : List α, t <:+ d ++ c :: r → t <:+ r
  | [], h => by
    rcases List.suffix_cons_iff.1 h with h1 | h1
    · exact absurd (h1 ▸ List.mem_cons_self c r) hc
    · exact h1
  | a :: d, h => by
    rcases List.suffix_cons_iff.1 h with h1 | h1
    · exact absurd (h1 ▸ List.mem_cons_of_mem a (List.mem_append_right d
        (List.mem_cons_self c r))) hc
    · exact suffix_of_suffix_append_cons c t r hc d h1

/-- A round that goes on has appended the record of `tagRun` and written nothing. -/
theorem tagsBody_next (env : Env V) (rc : registryController V) (repo tag : String)
    (s s1 : World V) (result result1 : AnalysisResult V)
    (h : tagsBody env rc repo tag s result = Flow.next s1 result1) :
    ∃ rp, (tagRun env rc repo tag).2 = Except.ok rp ∧
      result1 = { result with Repositories := result.Repositories ++ [rp] } ∧
      s1 = { w := s.w, calls := s.calls ++ (tagRun env rc repo tag).1 } := by
  rw [tagsBody_eq] at h
  rcases hd : tagRun env rc repo tag with ⟨cs, e | rp⟩
  · simp [hd] at h
  · simp only [hd] at h
    injection h with h1 h2
    exact ⟨rp, rfl, h2.symm, h1.symm⟩

/-- The successful run of `tagsHandler`: the last call is the template "tags", on a
result with one record per tag, the record at index `i` being the one built for
the tag at index `i`; the response is what the template writes. -/
theorem tagsHandler_success (env : Env V) (rc : registryController V) (r : Request)
    (tags : List String) (hrepo : lookupStr r.Vars "repo" ≠ "")
    (htags : rc.reg.Tags (lookupStr r.Vars "repo") = Except.ok tags)
    (hall : ∀ t ∈ tags, tagSucceeds env rc (lookupStr r.Vars "repo") t = true) :
    ∃ result : AnalysisResult V,
      (tagsHandler env rc ResponseWriter.fresh r).calls.getLast? =
        some (Call.ExecuteTemplate "tags" (TemplateData.analysis result)) ∧
      result.Name = lookupStr r.Vars "repo" ∧
      result.RegistryDomain = rc.reg.Domain ∧
      result.Repositories.length = tags.length ∧
      ∀ (i : Nat) (h : i < tags.length),
        ∃ rp, result.Repositories[i]? = some rp ∧
          (tagRun env rc (lookupStr r.Vars "repo") tags[i]).2 = Except.ok rp := by
  obtain ⟨rps, hrps⟩ := loopRun_ok_of_all env rc (lookupStr r.Vars "repo") tags hall
  have hf := loopRun_ok env rc (lookupStr r.Vars "repo") tags rps hrps
  refine ⟨{ Repositories := rps, RegistryDomain := rc.reg.Domain,
            Name := lookupStr r.Vars "repo" }, ?_, rfl, rfl, hf.length_eq.symm, ?_⟩
  · rw [tagsHandler_eq env rc r tags hrepo htags]
    rcases hl : loopRun env rc (lookupStr r.Vars "repo") tags with ⟨cs, e | rps2⟩
    · simp [hl] at hrps
    · simp only [hl] at hrps
      injection hrps with hrps
      subst hrps
      exact List.getLast?_concat _
  · intro i h
    have hi : i < rps.length := hf.length_eq ▸ h
    refine ⟨rps[i], by simp [hi], ?_⟩
    exact hf.get h hi

/-- The URI of a record, as the spec writes it. -/
theorem repoURI_eq (domain repo tag : String) :
    repoURI domain repo tag =
      if tag = "latest" then domain ++ "/" ++ repo
      else domain ++ "/" ++ repo ++ ":" ++ tag := by
  unfold repoURI
  by_cases h : tag = "latest"
  · simp [h]
  · simp [h, String.append_assoc]

/-- Every entry on the right of related lists has a partner on the left. -/
theorem forall₂_exists_of_mem_right {α β : Type} {R : α → β → Prop} :
    ∀ {l1 : List α} {l2 : List β}, List.Forall₂ R l1 l2 →
      ∀ b ∈ l2, ∃ a ∈ l1, R a b
  | _, _, List.Forall₂.nil, b, hb => by simp at hb
  | _, _, List.Forall₂.cons hab htl, b, hb => by
    rcases List.mem_cons.1 hb with rfl | hb1
    · exact ⟨_, List.mem_cons_self _ _, hab⟩
    · obtain ⟨a, ha, hr⟩ := forall₂_exists_of_mem_right htl b hb1
      exact ⟨a, List.mem_cons_of_mem _ ha, hr⟩

/-- The calls of `tagsHandler`: the tag list, the calls of the loop, a template. -/
theorem tagsHandler_calls (env : Env V) (rc : registryController V) (r : Request) :
    ∀ c ∈ (tagsHandler env rc ResponseWriter.fresh r).calls,
      c = Call.Tags (lookupStr r.Vars "repo") ∨ Call.inLoop rc.cl.isSome c = true ∨
        ∃ data, c = Call.ExecuteTemplate "tags" data := by
  intro c h
  by_cases hrepo : lookupStr r.Vars "repo" = ""
  · simp [tagsHandler, hrepo, World.WriteHeader, World.Fprint] at h
  · cases htags : rc.reg.Tags (lookupStr r.Vars "repo") with
    | error e =>
      simp [tagsHandler, hrepo, htags, World.WriteHeader, World.Fprint, World.call] at h
      exact Or.inl h
    | ok tags =>
      rw [tagsHandler_eq env rc r tags hrepo htags] at h
      have hc := loopRun_calls env rc (lookupStr r.Vars "repo") tags
      rcases hl : loopRun env rc (lookupStr r.Vars "repo") tags with ⟨cs, e | rps⟩
      · simp only [hl, List.mem_cons] at h hc
        rcases h with h | h
        · exact Or.inl h
        · exact Or.inr (Or.inl (hc _ h))
      · simp only [hl, List.mem_cons, List.mem_append, List.cons_append, List.mem_singleton]
          at h hc
        rcases h with h | h | h
        · exact Or.inl h
        · exact Or.inr (Or.inl (hc _ h))
        · rcases h with h | h
          · exact Or.inr (Or.inr ⟨_, h⟩)
          · cases h

/-- A round that appends a record is a round whose three steps succeed. -/
theorem tagSucceeds_of_tagRun_ok (env : Env V) (rc : registryController V) (repo tag : String)
    (rp : Repository V) (h : (tagRun env rc repo tag).2 = Except.ok rp) :
    tagSucceeds env rc repo tag = true := by
  rcases hs : tagSucceeds env rc repo tag with _ | _
  · obtain ⟨e, he⟩ := loopRun_error_of_mem env rc repo [tag] tag (by simp) hs
    rcases hd : tagRun env rc repo tag with ⟨cs, e1 | rp1⟩
    · simp [hd] at h
    · simp [loopRun, hd] at he
  · rfl

/-- A round whose steps do not all succeed answers. -/
theorem tagRun_error_of_not_tagSucceeds (env : Env V) (rc : registryController V)
    (repo tag : String) (h : tagSucceeds env rc repo tag = false) :
    ∃ e, (tagRun env rc repo tag).2 = Except.error e := by
  rcases hd : (tagRun env rc repo tag).2 with e | rp
  · exact ⟨e, rfl⟩
  · rw [tagSucceeds_of_tagRun_ok env rc repo tag rp hd] at h
    cases h

/-- The tags after a failing tag play no part in the loop. -/
theorem loopRun_truncate (env : Env V) (rc : registryController V) (repo tag : String)
    (post : List String) (h : tagSucceeds env rc repo tag = false) :
    ∀ pre : List String,
      loopRun env rc repo (pre ++ tag :: post) = loopRun env rc repo (pre ++ [tag])
  | [] => by
    obtain ⟨e, he⟩ := tagRun_error_of_not_tagSucceeds env rc repo tag h
    rcases hd : tagRun env rc repo tag with ⟨cs, e1 | rp⟩
    · simp [loopRun, hd]
    · simp [hd] at he
  | t :: pre => by
    rw [List.cons_append, List.cons_append, loopRun, loopRun,
      loopRun_truncate env rc repo tag post h pre]

/-- The loop is the same in two settings whose rounds are the same on its tags. -/
theorem loopRun_congr_mem (env env2 : Env V) (rc rc2 : registryController V) (repo : String) :
    ∀ tags : List String,
      (∀ t ∈ tags, tagRun env2 rc2 repo t = tagRun env rc repo t) →
      loopRun env2 rc2 repo tags = loopRun env rc repo tags
  | [], _ => rfl
  | t :: rest, h => by
    rw [loopRun, loopRun, h t (by simp),
      loopRun_congr_mem env env2 rc rc2 repo rest (fun u hu => h u (by simp [hu]))]

/-- Two settings with the same domain, decoder, manifest and scan outcome for a tag
have the same round for it. -/
theorem tagRun_agree (env env2 : Env V) (rc rc2 : registryController V) (repo tag : String)
    (hD : rc2.reg.Domain = rc.reg.Domain) (hU : env2.Unmarshal = env.Unmarshal)
    (hM : rc2.reg.ManifestV1 repo tag = rc.reg.ManifestV1 repo tag)
    (hS : ∀ m1, rc2.cl.map (fun cl => cl.Vulnerabilities rc2.reg repo tag m1) =
      rc.cl.map (fun cl => cl.Vulnerabilities rc.reg repo tag m1)) :
    tagRun env2 rc2 repo tag = tagRun env rc repo tag := by
  unfold tagRun
  rw [hM, hU, hD]
  cases hm : rc.reg.ManifestV1 repo tag with
  | error e => rfl
  | ok m1 =>
    have hs := hS m1
    cases hc : rc.cl with
    | none =>
      cases hc2 : rc2.cl with
      | none => rfl
      | some cl2 => simp [hc, hc2] at hs
    | some cl =>
      cases hc2 : rc2.cl with
      | none => simp [hc, hc2] at hs
      | some cl2 =>
        simp only [hc, hc2, Option.map_some', Option.some.injEq] at hs
        simp only [hs]

/-- A round whose three steps succeed goes on, with the record of `tagRun` appended
and nothing written. -/
theorem tagsBody_next_of_tagSucceeds (env : Env V) (rc : registryController V)
    (repo tag : String) (s : World V) (result : AnalysisResult V)
    (h : tagSucceeds env rc repo tag = true) :
    ∃ s1 result1 rp, tagsBody env rc repo tag s result = Flow.next s1 result1 ∧
      (tagRun env rc repo tag).2 = Except.ok rp ∧
      result1.Repositories = result.Repositories ++ [rp] ∧ s1.w = s.w := by
  obtain ⟨rp, hrp⟩ := tagRun_ok_of_tagSucceeds env rc repo tag h
  rw [tagsBody_eq]
  rcases hd : tagRun env rc repo tag with ⟨cs, e | rp1⟩
  · simp [hd] at hrp
  · simp only [hd] at hrp
    injection hrp with hrp
    subst hrp
    exact ⟨_, _, rp1, rfl, rfl, rfl, rfl⟩

end Lemmas

/-! ## The claims -/

section Claims

/-- C7: empty path values are rejected before any call. With an empty `repo`,
`tagHandler`, `tagsHandler` and `vulnerabilitiesHandler` answer 404 "Empty repo";
with a non-empty `repo` and an empty `tag`, `tagHandler` and `vulnerabilitiesHandler`
answer 404 "Empty tag". In each case the list of calls is empty and the result is
the same for every registry, scanner, decoder and template set. -/
theorem empty_path_values_rejected {V : Type} [Inhabited V] (env : Env V)
    (rc : registryController V) (r : Request) :
    (lookupStr r.Vars "repo" = "" →
      tagHandler env rc ResponseWriter.fresh r =
        { w := { header := [], status := some 404, sent := [], body := "Empty repo" },
          calls := [] } ∧
      tagsHandler env rc ResponseWriter.fresh r =
        { w := { header := [], status := some 404, sent := [], body := "Empty repo" },
          calls := [] } ∧
      vulnerabilitiesHandler env rc ResponseWriter.fresh r =
        { w := { header := [], status := some 404, sent := [], body := "Empty repo" },
          calls := [] }) ∧
    (lookupStr r.Vars "repo" ≠ "" → lookupStr r.Vars "tag" = "" →
      tagHandler env rc ResponseWriter.fresh r =
        { w := { header := [], status := some 404, sent := [], body := "Empty tag" },
          calls := [] } ∧
      vulnerabilitiesHandler env rc ResponseWriter.fresh r =
        { w := { header := [], status := some 404, sent := [], body := "Empty tag" },
          calls := [] }) := by
  refine ⟨fun h => ?_, fun h1 h2 => ?_⟩
  · simp [tagHandler, tagsHandler, vulnerabilitiesHandler, h, World.WriteHeader,
      World.Fprint, fresh_WriteHeader_Write]
  · simp [tagHandler, vulnerabilitiesHandler, h1, h2, World.WriteHeader,
      World.Fprint, fresh_WriteHeader_Write]

/-- Witness of C7: a request without a repository, and one with the repository
"library/alpine" and no tag. -/
theorem empty_path_values_rejected_witness :
    (lookupStr (exampleRequest "" "3.18" "").Vars "repo" = "" ∧
      tagsHandler exampleEnv exampleRcScan ResponseWriter.fresh (exampleRequest "" "3.18" "") =
        { w := { header := [], status := some 404, sent := [], body := "Empty repo" },
          calls := [] }) ∧
    (lookupStr (exampleRequest "library/alpine" "" "").Vars "repo" ≠ "" ∧
      lookupStr (exampleRequest "library/alpine" "" "").Vars "tag" = "" ∧
      vulnerabilitiesHandler exampleEnv exampleRcScan ResponseWriter.fresh
          (exampleRequest "library/alpine" "" "") =
        { w := { header := [], status := some 404, sent := [], body := "Empty tag" },
          calls := [] }) :=
  ⟨⟨by decide,
    ((empty_path_values_rejected exampleEnv exampleRcScan
      (exampleRequest "" "3.18" "")).1 (by decide)).2.1⟩,
   ⟨by decide, by decide,
    ((empty_path_values_rejected exampleEnv exampleRcScan
      (exampleRequest "library/alpine" "" "")).2 (by decide) (by decide)).2⟩⟩

/-- C6: when the catalog call succeeds, `repositoriesHandler` calls the catalog and
then the template "repositories", once each, with a result that has one record per
catalog entry, in catalog order: the record at index `i` has the name of entry `i`,
the URI `domain/name`, and a zero tag, creation time and vulnerability report. -/
theorem repositoriesHandler_records {V : Type} [Inhabited V] (env : Env V)
    (rc : registryController V) (r : Request) (repoList : List String)
    (hcat : rc.reg.Catalog "" = Except.ok repoList) :
    ∃ result : AnalysisResult V,
      (repositoriesHandler env rc ResponseWriter.fresh r).calls =
        [Call.Catalog "", Call.ExecuteTemplate "repositories" (TemplateData.analysis result)] ∧
      result.RegistryDomain = rc.reg.Domain ∧
      result.Repositories.length = repoList.length ∧
      ∀ (i : Nat) (h : i < repoList.length),
        result.Repositories[i]? =
          some { Name := repoList[i], Tag := "", Created := Time.zero,
                 URI := rc.reg.Domain ++ "/" ++ repoList[i],
                 VulnerabilityReport := default } := by
  refine ⟨{ Repositories := repoList.map (fun repo =>
      ({ Repository.zero with Name := repo, URI := rc.reg.Domain ++ "/" ++ repo } :
        Repository V)), RegistryDomain := rc.reg.Domain, Name := "" }, ?_, rfl, by simp, ?_⟩
  · unfold repositoriesHandler
    simp only [hcat, repositories_foldl, World.ExecuteTemplate, World.call,
      AnalysisResult.zero, List.nil_append]
    cases env.ExecuteTemplate "repositories" (TemplateData.analysis
        { Repositories := repoList.map (fun repo =>
            ({ Repository.zero with Name := repo, URI := rc.reg.Domain ++ "/" ++ repo } :
              Repository V)), RegistryDomain := rc.reg.Domain, Name := "" }) with
    | mk chunks err => cases err <;> simp [World.WriteHeader]
  · intro i h
    simp [h, Repository.zero]

/-- Witness of C6: the catalog of the example registry. -/
theorem repositoriesHandler_records_witness :
    ∃ result : AnalysisResult (List String),
      (repositoriesHandler exampleEnv exampleRc ResponseWriter.fresh
          (exampleRequest "" "" "")).calls =
        [Call.Catalog "", Call.ExecuteTemplate "repositories" (TemplateData.analysis result)] ∧
      result.RegistryDomain = exampleRc.reg.Domain ∧
      result.Repositories.length = ["library/alpine", "library/broken"].length ∧
      ∀ (i : Nat) (h : i < ["library/alpine", "library/broken"].length),
        result.Repositories[i]? =
          some { Name := ["library/alpine", "library/broken"][i], Tag := "",
                 Created := Time.zero,
                 URI := exampleRc.reg.Domain ++ "/" ++ ["library/alpine", "library/broken"][i],
                 VulnerabilityReport := default } :=
  repositoriesHandler_records exampleEnv exampleRc (exampleRequest "" "" "")
    ["library/alpine", "library/broken"] rfl

/-- C1: `tagsHandler` is all-or-nothing. For a non-empty `repo` whose tag list is
fetched, if the manifest fetch fails for some tag of the list, the response is an
error response (404 "Manifest not found", or 500 with an empty body when an earlier
tag already failed to decode or scan), no template is executed, and the result does
not depend on the template set: no record reaches the response. -/
theorem tagsHandler_all_or_nothing {V : Type} [Inhabited V] (env : Env V)
    (rc : registryController V) (r : Request) (tags : List String) (tag : String)
    (err : Error) (hrepo : lookupStr r.Vars "repo" ≠ "")
    (htags : rc.reg.Tags (lookupStr r.Vars "repo") = Except.ok tags)
    (hmem : tag ∈ tags)
    (hfail : rc.reg.ManifestV1 (lookupStr r.Vars "repo") tag = Except.error err) :
    ((tagsHandler env rc ResponseWriter.fresh r).w =
        { header := [], status := some 404, sent := [], body := "Manifest not found" } ∨
      (tagsHandler env rc ResponseWriter.fresh r).w =
        { header := [], status := some 500, sent := [], body := "" }) ∧
    (∀ name data,
      Call.ExecuteTemplate name data ∉ (tagsHandler env rc ResponseWriter.fresh r).calls) ∧
    (∀ env2 : Env V, env2.Unmarshal = env.Unmarshal →
      tagsHandler env2 rc ResponseWriter.fresh r =
        tagsHandler env rc ResponseWriter.fresh r) := by
  have hs : tagSucceeds env rc (lookupStr r.Vars "repo") tag = false := by
    simp [tagSucceeds, hfail]
  obtain ⟨e, he⟩ := loopRun_error_of_mem env rc (lookupStr r.Vars "repo") tags tag hmem hs
  have hkind := loopRun_error env rc (lookupStr r.Vars "repo") tags e he
  refine ⟨?_, ?_, ?_⟩
  · rw [tagsHandler_eq env rc r tags hrepo htags]
    rcases hl : loopRun env rc (lookupStr r.Vars "repo") tags with ⟨cs, e1 | rps⟩
    · simp only [hl] at he
      injection he with he
      subst he
      rcases hkind with h1 | h1 <;> simp [h1]
    · simp [hl] at he
  · intro name data hin
    obtain ⟨tags1, rps, h1, h2, -, -⟩ := tagsHandler_template_data env rc r name data hin
    rw [htags] at h1
    injection h1 with h1
    subst h1
    rw [he] at h2
    cases h2
  · intro env2 h2
    rw [tagsHandler_eq env rc r tags hrepo htags, tagsHandler_eq env2 rc r tags hrepo htags,
      loopRun_congr env env2 rc (lookupStr r.Vars "repo") h2 tags]
    rcases hl : loopRun env rc (lookupStr r.Vars "repo") tags with ⟨cs, e1 | rps⟩
    · rfl
    · simp [hl] at he

/-- Witness of C1: in "library/broken" the second of three tags has no manifest. -/
theorem tagsHandler_all_or_nothing_witness :
    (lookupStr (exampleRequest "library/broken" "" "").Vars "repo" ≠ "" ∧
      exampleRc.reg.Tags (lookupStr (exampleRequest "library/broken" "" "").Vars "repo") =
        Except.ok ["1.0", "missing", "garbled"] ∧
      "missing" ∈ ["1.0", "missing", "garbled"] ∧
      exampleRc.reg.ManifestV1 (lookupStr (exampleRequest "library/broken" "" "").Vars "repo")
        "missing" = Except.error "manifest unknown") ∧
    (((tagsHandler exampleEnv exampleRc ResponseWriter.fresh
          (exampleRequest "library/broken" "" "")).w =
        { header := [], status := some 404, sent := [], body := "Manifest not found" } ∨
      (tagsHandler exampleEnv exampleRc ResponseWriter.fresh
          (exampleRequest "library/broken" "" "")).w =
        { header := [], status := some 500, sent := [], body := "" }) ∧
    (∀ name data,
      Call.ExecuteTemplate name data ∉
        (tagsHandler exampleEnv exampleRc ResponseWriter.fresh
          (exampleRequest "library/broken" "" "")).calls) ∧
    (∀ env2 : Env (List String), env2.Unmarshal = exampleEnv.Unmarshal →
      tagsHandler env2 exampleRc ResponseWriter.fresh (exampleRequest "library/broken" "" "") =
        tagsHandler exampleEnv exampleRc ResponseWriter.fresh
          (exampleRequest "library/broken" "" ""))) :=
  ⟨⟨by decide, rfl, by decide, rfl⟩,
    tagsHandler_all_or_nothing exampleEnv exampleRc (exampleRequest "library/broken" "" "")
      ["1.0", "missing", "garbled"] "missing" "manifest unknown" (by decide) rfl
      (by decide) rfl⟩

/-- C2: on success `tagsHandler` preserves the order of the registry. For a
non-empty `repo` whose tag list is fetched and all of whose tags succeed (manifest
fetch, decode of the first history entry, scan if a scanner is configured), the
template "tags" is the last call, and its result has as many records as there are
tags, the record at index `i` having the tag at index `i` and the name `repo`. -/
theorem tagsHandler_preserves_order {V : Type} [Inhabited V] (env : Env V)
    (rc : registryController V) (r : Request) (tags : List String)
    (hrepo : lookupStr r.Vars "repo" ≠ "")
    (htags : rc.reg.Tags (lookupStr r.Vars "repo") = Except.ok tags)
    (hall : ∀ t ∈ tags, tagSucceeds env rc (lookupStr r.Vars "repo") t = true) :
    ∃ result : AnalysisResult V,
      (tagsHandler env rc ResponseWriter.fresh r).calls.getLast? =
        some (Call.ExecuteTemplate "tags" (TemplateData.analysis result)) ∧
      result.Repositories.length = tags.length ∧
      ∀ (i : Nat) (h : i < tags.length),
        ∃ rp, result.Repositories[i]? = some rp ∧ rp.Tag = tags[i] ∧
          rp.Name = lookupStr r.Vars "repo" := by
  obtain ⟨result, h1, -, -, h2, h3⟩ := tagsHandler_success env rc r tags hrepo htags hall
  refine ⟨result, h1, h2, fun i h => ?_⟩
  obtain ⟨rp, hrp, hrun⟩ := h3 i h
  have hok := tagRun_ok env rc (lookupStr r.Vars "repo") tags[i] rp hrun
  exact ⟨rp, hrp, hok.2.1, hok.1⟩

/-- Witness of C2: the two tags of "library/alpine", without a scanner. -/
theorem tagsHandler_preserves_order_witness :
    (lookupStr (exampleRequest "library/alpine" "" "").Vars "repo" ≠ "" ∧
      exampleRc.reg.Tags (lookupStr (exampleRequest "library/alpine" "" "").Vars "repo") =
        Except.ok ["latest", "3.18"] ∧
      (∀ t ∈ ["latest", "3.18"],
        tagSucceeds exampleEnv exampleRc
          (lookupStr (exampleRequest "library/alpine" "" "").Vars "repo") t = true)) ∧
    ∃ result : AnalysisResult (List String),
      (tagsHandler exampleEnv exampleRc ResponseWriter.fresh
          (exampleRequest "library/alpine" "" "")).calls.getLast? =
        some (Call.ExecuteTemplate "tags" (TemplateData.analysis result)) ∧
      result.Repositories.length = ["latest", "3.18"].length ∧
      ∀ (i : Nat) (h : i < ["latest", "3.18"].length),
        ∃ rp, result.Repositories[i]? = some rp ∧ rp.Tag = ["latest", "3.18"][i] ∧
          rp.Name = lookupStr (exampleRequest "library/alpine" "" "").Vars "repo" :=
  ⟨⟨by decide, rfl, by decide⟩,
    tagsHandler_preserves_order exampleEnv exampleRc (exampleRequest "library/alpine" "" "")
      ["latest", "3.18"] (by decide) rfl (by decide)⟩

/-- C3: the URI of the record `tagsHandler` builds for a tag is `domain/repo` when
the tag is "latest" and `domain/repo:tag` otherwise. This holds for the record a
round of the loop appends, and, on a successful run, for the record at index `i`
of the result handed to the template "tags" and the tag at index `i`. -/
theorem tagsHandler_record_uri {V : Type} [Inhabited V] (env : Env V)
    (rc : registryController V) (r : Request) (tags : List String)
    (hrepo : lookupStr r.Vars "repo" ≠ "")
    (htags : rc.reg.Tags (lookupStr r.Vars "repo") = Except.ok tags)
    (hall : ∀ t ∈ tags, tagSucceeds env rc (lookupStr r.Vars "repo") t = true) :
    (∀ (repo tag : String) (s s1 : World V) (result result1 : AnalysisResult V),
      tagsBody env rc repo tag s result = Flow.next s1 result1 →
      ∃ rp, result1.Repositories = result.Repositories ++ [rp] ∧
        rp.URI = if tag = "latest" then rc.reg.Domain ++ "/" ++ repo
          else rc.reg.Domain ++ "/" ++ repo ++ ":" ++ tag) ∧
    ∃ result : AnalysisResult V,
      (tagsHandler env rc ResponseWriter.fresh r).calls.getLast? =
        some (Call.ExecuteTemplate "tags" (TemplateData.analysis result)) ∧
      ∀ (i : Nat) (h : i < tags.length),
        ∃ rp, result.Repositories[i]? = some rp ∧
          rp.URI = if tags[i] = "latest" then rc.reg.Domain ++ "/" ++ lookupStr r.Vars "repo"
            else rc.reg.Domain ++ "/" ++ lookupStr r.Vars "repo" ++ ":" ++ tags[i] := by
  constructor
  · intro repo tag s s1 result result1 h
    obtain ⟨rp, hrun, hres, -⟩ := tagsBody_next env rc repo tag s s1 result result1 h
    refine ⟨rp, by rw [hres], ?_⟩
    rw [(tagRun_ok env rc repo tag rp hrun).2.2.1, repoURI_eq]
  · obtain ⟨result, h1, -, -, -, h3⟩ := tagsHandler_success env rc r tags hrepo htags hall
    refine ⟨result, h1, fun i h => ?_⟩
    obtain ⟨rp, hrp, hrun⟩ := h3 i h
    refine ⟨rp, hrp, ?_⟩
    rw [(tagRun_ok env rc (lookupStr r.Vars "repo") tags[i] rp hrun).2.2.1, repoURI_eq]

/-- Witness of C3: the registry "registry.example.com", the repository
"library/alpine" and the tags "latest" and "3.18" give the URIs
"registry.example.com/library/alpine" and "registry.example.com/library/alpine:3.18",
in that order. -/
theorem tagsHandler_record_uri_witness :
    (lookupStr (exampleRequest "library/alpine" "" "").Vars "repo" ≠ "" ∧
      exampleRc.reg.Tags (lookupStr (exampleRequest "library/alpine" "" "").Vars "repo") =
        Except.ok ["latest", "3.18"] ∧
      (∀ t ∈ ["latest", "3.18"],
        tagSucceeds exampleEnv exampleRc
          (lookupStr (exampleRequest "library/alpine" "" "").Vars "repo") t = true)) ∧
    (∃ result : AnalysisResult (List String),
      (tagsHandler exampleEnv exampleRc ResponseWriter.fresh
          (exampleRequest "library/alpine" "" "")).calls.getLast? =
        some (Call.ExecuteTemplate "tags" (TemplateData.analysis result)) ∧
      ∀ (i : Nat) (h : i < ["latest", "3.18"].length),
        ∃ rp, result.Repositories[i]? = some rp ∧
          rp.URI = if ["latest", "3.18"][i] = "latest"
            then exampleRc.reg.Domain ++ "/" ++
              lookupStr (exampleRequest "library/alpine" "" "").Vars "repo"
            else exampleRc.reg.Domain ++ "/" ++
              lookupStr (exampleRequest "library/alpine" "" "").Vars "repo" ++ ":" ++
              ["latest", "3.18"][i]) ∧
    (tagsHandler exampleEnv exampleRc ResponseWriter.fresh
        (exampleRequest "library/alpine" "" "")).calls.getLast? =
      some (Call.ExecuteTemplate "tags" (TemplateData.analysis
        { Repositories :=
            [{ Name := "library/alpine", Tag := "latest", Created := ⟨1700000000, 0⟩,
               URI := "registry.example.com/library/alpine", VulnerabilityReport := [] },
             { Name := "library/alpine", Tag := "3.18", Created := ⟨1700000000, 0⟩,
               URI := "registry.example.com/library/alpine:3.18",
               VulnerabilityReport := [] }],
          RegistryDomain := "registry.example.com", Name := "library/alpine" })) :=
  ⟨⟨by decide, rfl, by decide⟩,
    (tagsHandler_record_uri exampleEnv exampleRc (exampleRequest "library/alpine" "" "")
      ["latest", "3.18"] (by decide) rfl (by decide)).2,
    by decide⟩

/-- C4, as the spec states it, fails for the tag "latest" when the repository name
itself ends in ":latest": the URI is then `domain/repo` and ends in ":latest". -/
theorem repoURI_latest_counterexample :
    repoURI "registry.example.com" "library/alpine:latest" "latest" =
      "registry.example.com/library/alpine:latest" ∧
    endsIn (repoURI "registry.example.com" "library/alpine:latest" "latest")
      (":" ++ "latest") ∧
    (tagsHandler exampleEnv exampleRc ResponseWriter.fresh
        (exampleRequest "library/alpine:latest" "" "")).calls.getLast? =
      some (Call.ExecuteTemplate "tags" (TemplateData.analysis
        { Repositories :=
            [{ Name := "library/alpine:latest", Tag := "latest",
               Created := ⟨1700000000, 0⟩,
               URI := "registry.example.com/library/alpine:latest",
               VulnerabilityReport := [] }],
          RegistryDomain := "registry.example.com", Name := "library/alpine:latest" })) := by
  decide

/-- C4, amended: for a tag other than "latest" the URI ends in `:tag`; for the tag
"latest" the URI is exactly `domain/repo`, nothing is appended, and it ends in
":latest" if and only if `repo` itself does. -/
theorem repoURI_suffix (domain repo tag : String) :
    (tag ≠ "latest" → endsIn (repoURI domain repo tag) (":" ++ tag)) ∧
    (tag = "latest" →
      repoURI domain repo tag = domain ++ "/" ++ repo ∧
      (endsIn (repoURI domain repo tag) (":" ++ tag) ↔ endsIn repo (":" ++ tag))) := by
  constructor
  · intro h
    unfold endsIn repoURI
    simp only [bne_iff_ne, ne_eq, h, not_false_eq_true, if_true, String.data_append]
    exact List.suffix_append _ _
  · intro h
    subst h
    have huri : repoURI domain repo "latest" = domain ++ "/" ++ repo := by
      simp [repoURI]
    refine ⟨huri, ?_⟩
    rw [huri]
    unfold endsIn
    have hd : (domain ++ "/" ++ repo).data = domain.data ++ '/' :: repo.data := by
      simp [String.data_append]
    rw [hd]
    constructor
    · intro hs
      exact suffix_of_suffix_append_cons '/' _ _ (by decide) domain.data hs
    · intro hs
      exact hs.trans ((List.suffix_cons _ _).trans (List.suffix_append _ _))

/-- Witness of C4 amended: the tag "3.18", and the tag "latest" with a repository
name that does not end in ":latest". -/
theorem repoURI_suffix_witness :
    ("3.18" ≠ "latest" ∧
      endsIn (repoURI "registry.example.com" "library/alpine" "3.18") (":" ++ "3.18")) ∧
    ("latest" = "latest" ∧
      repoURI "registry.example.com" "library/alpine" "latest" =
        "registry.example.com" ++ "/" ++ "library/alpine" ∧
      (endsIn (repoURI "registry.example.com" "library/alpine" "latest") (":" ++ "latest") ↔
        endsIn "library/alpine" (":" ++ "latest")) ∧
      ¬ endsIn "library/alpine" (":" ++ "latest")) :=
  ⟨⟨by decide,
    (repoURI_suffix "registry.example.com" "library/alpine" "3.18").1 (by decide)⟩,
   ⟨rfl,
    ((repoURI_suffix "registry.example.com" "library/alpine" "latest").2 rfl).1,
    ((repoURI_suffix "registry.example.com" "library/alpine" "latest").2 rfl).2,
    by decide⟩⟩

/-- C5: without a scanner (`rc.cl` is nil) `tagsHandler` makes no scanner call, and
every record it builds has the zero-value vulnerability report: the record a round
of the loop appends, and every record of a result handed to a template. -/
theorem tagsHandler_without_scanner {V : Type} [Inhabited V] (env : Env V)
    (rc : registryController V) (r : Request) (hcl : rc.cl = none) :
    (∀ repo tag m1,
      Call.Vulnerabilities repo tag m1 ∉ (tagsHandler env rc ResponseWriter.fresh r).calls) ∧
    (∀ name result,
      Call.ExecuteTemplate name (TemplateData.analysis result) ∈
        (tagsHandler env rc ResponseWriter.fresh r).calls →
      ∀ rp ∈ result.Repositories, rp.VulnerabilityReport = default) ∧
    (∀ (repo tag : String) (s s1 : World V) (result result1 : AnalysisResult V),
      tagsBody env rc repo tag s result = Flow.next s1 result1 →
      (∀ repo1 tag1 m1, Call.Vulnerabilities repo1 tag1 m1 ∈ s1.calls →
        Call.Vulnerabilities repo1 tag1 m1 ∈ s.calls) ∧
      ∃ rp, result1.Repositories = result.Repositories ++ [rp] ∧
        rp.VulnerabilityReport = default) := by
  refine ⟨?_, ?_, ?_⟩
  · intro repo tag m1 hin
    rcases tagsHandler_calls env rc r _ hin with h | h | ⟨data, h⟩
    · cases h
    · simp [Call.inLoop, hcl] at h
    · cases h
  · intro name result hin rp hrp
    obtain ⟨tags, rps, -, hrun, -, hdata⟩ := tagsHandler_template_data env rc r name _ hin
    injection hdata with hdata
    subst hdata
    have hf := loopRun_ok env rc (lookupStr r.Vars "repo") tags rps hrun
    obtain ⟨tag, -, htag⟩ := forall₂_exists_of_mem_right hf rp hrp
    exact (tagRun_ok env rc (lookupStr r.Vars "repo") tag rp htag).2.2.2.1 hcl
  · intro repo tag s s1 result result1 h
    obtain ⟨rp, hrun, hres, hs1⟩ := tagsBody_next env rc repo tag s s1 result result1 h
    constructor
    · intro repo1 tag1 m1 hin
      rw [hs1] at hin
      rcases List.mem_append.1 hin with h1 | h1
      · exact h1
      · have := tagRun_calls env rc repo tag _ h1
        simp [Call.inLoop, hcl] at this
    · exact ⟨rp, by rw [hres], (tagRun_ok env rc repo tag rp hrun).2.2.2.1 hcl⟩

/-- Witness of C5: the controller without a scanner, on "library/alpine". -/
theorem tagsHandler_without_scanner_witness :
    exampleRc.cl = none ∧
    (∀ repo tag m1,
      Call.Vulnerabilities repo tag m1 ∉
        (tagsHandler exampleEnv exampleRc ResponseWriter.fresh
          (exampleRequest "library/alpine" "" "")).calls) ∧
    (∀ name result,
      Call.ExecuteTemplate name (TemplateData.analysis result) ∈
        (tagsHandler exampleEnv exampleRc ResponseWriter.fresh
          (exampleRequest "library/alpine" "" "")).calls →
      ∀ rp ∈ result.Repositories, rp.VulnerabilityReport = default) :=
  ⟨rfl,
    (tagsHandler_without_scanner exampleEnv exampleRc
      (exampleRequest "library/alpine" "" "") rfl).1,
    (tagsHandler_without_scanner exampleEnv exampleRc
      (exampleRequest "library/alpine" "" "") rfl).2.1⟩

/-- C10: the error response of `tagsHandler` is decided by the first failing tag.
For a non-empty `repo`: when the tag-list fetch fails the response is 404 "No tags
found"; when the tag list is `pre ++ tag :: post`, every tag of `pre` succeeds and
`tag` fails, the response is 404 "Manifest not found" if the manifest fetch of `tag`
fails, and 500 with an empty body if the decode of its first history entry or its
scan fails. In that case no template runs, and the whole result is the same in any
other setting that has the same domain and decoder, a tag list that starts with
`pre ++ [tag]`, and the same manifests and scan outcomes for the tags of
`pre ++ [tag]`: the tags after `tag` play no part. -/
theorem tagsHandler_first_failure {V : Type} [Inhabited V] (env : Env V)
    (rc : registryController V) (r : Request) (hrepo : lookupStr r.Vars "repo" ≠ "") :
    (∀ err, rc.reg.Tags (lookupStr r.Vars "repo") = Except.error err →
      tagsHandler env rc ResponseWriter.fresh r =
        { w := { header := [], status := some 404, sent := [], body := "No tags found" },
          calls := [Call.Tags (lookupStr r.Vars "repo")] }) ∧
    (∀ (pre : List String) (tag : String) (post : List String),
      rc.reg.Tags (lookupStr r.Vars "repo") = Except.ok (pre ++ tag :: post) →
      (∀ t ∈ pre, tagSucceeds env rc (lookupStr r.Vars "repo") t = true) →
      ((∃ err, rc.reg.ManifestV1 (lookupStr r.Vars "repo") tag = Except.error err) →
        (tagsHandler env rc ResponseWriter.fresh r).w =
          { header := [], status := some 404, sent := [], body := "Manifest not found" }) ∧
      ((∃ m1 h0 rest err, rc.reg.ManifestV1 (lookupStr r.Vars "repo") tag = Except.ok m1 ∧
          m1.History = h0 :: rest ∧ env.Unmarshal h0.V1Compatibility = Except.error err) →
        (tagsHandler env rc ResponseWriter.fresh r).w =
          { header := [], status := some 500, sent := [], body := "" }) ∧
      ((∃ m1 cl err, rc.reg.ManifestV1 (lookupStr r.Vars "repo") tag = Except.ok m1 ∧
          (∀ h0 rest, m1.History = h0 :: rest →
            ∃ comp, env.Unmarshal h0.V1Compatibility = Except.ok comp) ∧
          rc.cl = some cl ∧
          cl.Vulnerabilities rc.reg (lookupStr r.Vars "repo") tag m1 = Except.error err) →
        (tagsHandler env rc ResponseWriter.fresh r).w =
          { header := [], status := some 500, sent := [], body := "" }) ∧
      (tagSucceeds env rc (lookupStr r.Vars "repo") tag = false →
        (∀ name data,
          Call.ExecuteTemplate name data ∉ (tagsHandler env rc ResponseWriter.fresh r).calls) ∧
        ∀ (env2 : Env V) (rc2 : registryController V) (post2 : List String),
          rc2.reg.Tags (lookupStr r.Vars "repo") = Except.ok (pre ++ tag :: post2) →
          rc2.reg.Domain = rc.reg.Domain →
          env2.Unmarshal = env.Unmarshal →
          (∀ t ∈ pre ++ [tag],
            rc2.reg.ManifestV1 (lookupStr r.Vars "repo") t =
              rc.reg.ManifestV1 (lookupStr r.Vars "repo") t) →
          (∀ t ∈ pre ++ [tag], ∀ m1,
            rc2.cl.map (fun cl => cl.Vulnerabilities rc2.reg (lookupStr r.Vars "repo") t m1) =
              rc.cl.map (fun cl => cl.Vulnerabilities rc.reg (lookupStr r.Vars "repo") t m1)) →
          tagsHandler env2 rc2 ResponseWriter.fresh r =
            tagsHandler env rc ResponseWriter.fresh r)) := by
  refine ⟨fun err herr => ?_, fun pre tag post htags hpre => ?_⟩
  · simp [tagsHandler, hrepo, herr, World.call, World.WriteHeader, World.Fprint,
      fresh_WriteHeader_Write]
  · have key : ∀ e, (tagRun env rc (lookupStr r.Vars "repo") tag).2 = Except.error e →
        (tagsHandler env rc ResponseWriter.fresh r).w =
          { header := [], status := some e.1, sent := [], body := e.2 } := by
      intro e he
      have hl := loopRun_first_error env rc (lookupStr r.Vars "repo") tag post e he pre hpre
      rw [tagsHandler_eq env rc r _ hrepo htags]
      rcases hd : loopRun env rc (lookupStr r.Vars "repo") (pre ++ tag :: post)
        with ⟨cs, e1 | rps⟩
      · simp only [hd] at hl
        injection hl with hl
        subst hl
        rfl
      · simp [hd] at hl
    refine ⟨?_, ?_, ?_, ?_⟩
    · rintro ⟨err, hm⟩
      exact key _ (tagRun_manifest_error env rc _ tag err hm)
    · rintro ⟨m1, h0, rest, err, hm, hh, hu⟩
      exact key _ (tagRun_decode_error env rc _ tag m1 h0 rest err hm hh hu)
    · rintro ⟨m1, cl, err, hm, hd, hc, hv⟩
      exact key _ (tagRun_scan_error env rc _ tag m1 cl err hm hd hc hv)
    · intro hfail
      obtain ⟨e, he⟩ := tagRun_error_of_not_tagSucceeds env rc _ tag hfail
      have hl := loopRun_first_error env rc (lookupStr r.Vars "repo") tag post e he pre hpre
      constructor
      · intro name data hin
        obtain ⟨tags1, rps, h1, h2, -, -⟩ := tagsHandler_template_data env rc r name data hin
        rw [htags] at h1
        injection h1 with h1
        subst h1
        rw [hl] at h2
        cases h2
      · intro env2 rc2 post2 htags2 hD hU hM hS
        have hrun : ∀ t ∈ pre ++ [tag],
            tagRun env2 rc2 (lookupStr r.Vars "repo") t =
              tagRun env rc (lookupStr r.Vars "repo") t :=
          fun t ht => tagRun_agree env env2 rc rc2 _ t hD hU (hM t ht) (hS t ht)
        have hfail2 : tagSucceeds env2 rc2 (lookupStr r.Vars "repo") tag = false := by
          rcases hs : tagSucceeds env2 rc2 (lookupStr r.Vars "repo") tag with _ | _
          · rfl
          · obtain ⟨rp, hrp⟩ := tagRun_ok_of_tagSucceeds env2 rc2 _ tag hs
            rw [hrun tag (by simp), he] at hrp
            cases hrp
        have hsame : loopRun env2 rc2 (lookupStr r.Vars "repo") (pre ++ tag :: post2) =
            loopRun env rc (lookupStr r.Vars "repo") (pre ++ tag :: post) := by
          rw [loopRun_truncate env2 rc2 _ tag post2 hfail2 pre,
            loopRun_truncate env rc _ tag post hfail pre]
          exact loopRun_congr_mem env env2 rc rc2 _ _ hrun
        rw [tagsHandler_eq env rc r _ hrepo htags, tagsHandler_eq env2 rc2 r _ hrepo htags2,
          hsame]
        rcases hd : loopRun env rc (lookupStr r.Vars "repo") (pre ++ tag :: post)
          with ⟨cs, e1 | rps⟩
        · rfl
        · simp [hd] at hl

/-- Witness of C10: in "library/broken" the tag "1.0" succeeds and the tag "missing"
has no manifest; with the scanner, in "library/alpine" the tag "latest" succeeds and
the scan of "3.18" fails; the repository "library/none" has no tag list. -/
theorem tagsHandler_first_failure_witness :
    (lookupStr (exampleRequest "library/none" "" "").Vars "repo" ≠ "" ∧
      exampleRc.reg.Tags (lookupStr (exampleRequest "library/none" "" "").Vars "repo") =
        Except.error "repository unknown" ∧
      tagsHandler exampleEnv exampleRc ResponseWriter.fresh
          (exampleRequest "library/none" "" "") =
        { w := { header := [], status := some 404, sent := [], body := "No tags found" },
          calls := [Call.Tags
            (lookupStr (exampleRequest "library/none" "" "").Vars "repo")] }) ∧
    (lookupStr (exampleRequest "library/broken" "" "").Vars "repo" ≠ "" ∧
      exampleRc.reg.Tags (lookupStr (exampleRequest "library/broken" "" "").Vars "repo") =
        Except.ok (["1.0"] ++ "missing" :: ["garbled"]) ∧
      (∀ t ∈ ["1.0"], tagSucceeds exampleEnv exampleRc
        (lookupStr (exampleRequest "library/broken" "" "").Vars "repo") t = true) ∧
      (tagsHandler exampleEnv exampleRc ResponseWriter.fresh
          (exampleRequest "library/broken" "" "")).w =
        { header := [], status := some 404, sent := [], body := "Manifest not found" }) ∧
    (lookupStr (exampleRequest "library/alpine" "" "").Vars "repo" ≠ "" ∧
      exampleRcScan.reg.Tags (lookupStr (exampleRequest "library/alpine" "" "").Vars "repo") =
        Except.ok (["latest"] ++ "3.18" :: []) ∧
      (∀ t ∈ ["latest"], tagSucceeds exampleEnv exampleRcScan
        (lookupStr (exampleRequest "library/alpine" "" "").Vars "repo") t = true) ∧
      (tagsHandler exampleEnv exampleRcScan ResponseWriter.fresh
          (exampleRequest "library/alpine" "" "")).w =
        { header := [], status := some 500, sent := [], body := "" }) :=
  ⟨⟨by decide, rfl,
    (tagsHandler_first_failure exampleEnv exampleRc (exampleRequest "library/none" "" "")
      (by decide)).1 "repository unknown" rfl⟩,
   ⟨by decide, rfl, by decide,
    ((tagsHandler_first_failure exampleEnv exampleRc (exampleRequest "library/broken" "" "")
      (by decide)).2 ["1.0"] "missing" ["garbled"] rfl (by decide)).1
      ⟨"manifest unknown", rfl⟩⟩,
   ⟨by decide, rfl, by decide,
    ((tagsHandler_first_failure exampleEnv exampleRcScan
      (exampleRequest "library/alpine" "" "") (by decide)).2 ["latest"] "3.18" [] rfl
      (by decide)).2.2.1
      ⟨{ History := [⟨"layer-1"⟩, ⟨"garbled"⟩] }, exampleClair, "scan failed", rfl,
        fun h0 rest hh => by
          injection hh with h1 h2
          subst h1
          exact ⟨_, rfl⟩,
        rfl, rfl⟩⟩⟩

/-- C9, as the spec states it, fails when the scan fails. For the tag "3.18" of
"library/alpine" the manifest is fetched and its first history entry decodes, a
scanner is configured and its scan returns an error: the handler answers 500 with
an empty body, with and without the Accept-Encoding header; nothing is marshalled
and no template runs. The handler also answers 500 with an empty body when the
scan succeeds and `json.Marshal` returns an error. -/
theorem vulnerabilitiesHandler_scan_failure_counterexample :
    (lookupStr (exampleRequest "library/alpine" "3.18" "application/json").Vars "repo" ≠ "" ∧
      lookupStr (exampleRequest "library/alpine" "3.18" "application/json").Vars "tag" ≠ "" ∧
      exampleRcScan.reg.ManifestV1 "library/alpine" "3.18" =
        Except.ok { History := [⟨"layer-1"⟩, ⟨"garbled"⟩] } ∧
      exampleEnv.Unmarshal "layer-1" =
        Except.ok { ID := "layer-1", Created := ⟨1700000000, 0⟩ } ∧
      exampleRcScan.cl = some exampleClair ∧
      exampleClair.Vulnerabilities exampleRcScan.reg "library/alpine" "3.18"
        { History := [⟨"layer-1"⟩, ⟨"garbled"⟩] } = Except.error "scan failed" ∧
      lookupStr (exampleRequest "library/alpine" "3.18" "application/json").Header
        "Accept-Encoding" = "application/json") ∧
    vulnerabilitiesHandler exampleEnv exampleRcScan ResponseWriter.fresh
        (exampleRequest "library/alpine" "3.18" "application/json") =
      { w := { header := [], status := some 500, sent := [], body := "" },
        calls :=
          [Call.ManifestV1 "library/alpine" "3.18", Call.Unmarshal "layer-1",
           Call.Vulnerabilities "library/alpine" "3.18"
            { History := [⟨"layer-1"⟩, ⟨"garbled"⟩] }] } ∧
    vulnerabilitiesHandler exampleEnv exampleRcScan ResponseWriter.fresh
        (exampleRequest "library/alpine" "3.18" "") =
      { w := { header := [], status := some 500, sent := [], body := "" },
        calls :=
          [Call.ManifestV1 "library/alpine" "3.18", Call.Unmarshal "layer-1",
           Call.Vulnerabilities "library/alpine" "3.18"
            { History := [⟨"layer-1"⟩, ⟨"garbled"⟩] }] } ∧
    vulnerabilitiesHandler exampleEnvNoJSON exampleRcScan ResponseWriter.fresh
        (exampleRequest "library/alpine" "latest" "application/json") =
      { w := { header := [], status := some 500, sent := [], body := "" },
        calls :=
          [Call.ManifestV1 "library/alpine" "latest", Call.Unmarshal "layer-1",
           Call.Vulnerabilities "library/alpine" "latest"
            { History := [⟨"layer-1"⟩, ⟨"garbled"⟩] },
           Call.Marshal ["CVE-2017-0001"]] } :=
  ⟨⟨by decide, by decide, rfl, rfl, rfl, rfl, by decide⟩, by decide, by decide, by decide⟩

/-- C9, amended: content negotiation in `vulnerabilitiesHandler` when the scan
succeeds. For a non-empty `repo` and `tag` whose manifest is fetched and whose first
history entry (if any) decodes, let `result` be the report the scanner returns when
one is configured and its scan succeeds, and the zero-value report when none is
configured. If the Accept-Encoding header is "application/json" and `json.Marshal`
gives `js`, the body is `js`, the status is 200, the content type is
"application/json", the last call is the marshalling of `result` and no template
runs. Otherwise the last call is the template "vulns" on `result`, nothing is
marshalled, and the response is what the template writes. -/
theorem vulnerabilitiesHandler_negotiation {V : Type} [Inhabited V] (env : Env V)
    (rc : registryController V) (r : Request) (m1 : SignedManifest) (result : V)
    (hrepo : lookupStr r.Vars "repo" ≠ "") (htag : lookupStr r.Vars "tag" ≠ "")
    (hm : rc.reg.ManifestV1 (lookupStr r.Vars "repo") (lookupStr r.Vars "tag") = Except.ok m1)
    (hdec : ∀ h0 rest, m1.History = h0 :: rest →
      ∃ comp, env.Unmarshal h0.V1Compatibility = Except.ok comp)
    (hscan : (rc.cl = none ∧ result = default) ∨
      ∃ cl, rc.cl = some cl ∧
        cl.Vulnerabilities rc.reg (lookupStr r.Vars "repo") (lookupStr r.Vars "tag") m1 =
          Except.ok result) :
    (lookupStr r.Header "Accept-Encoding" = "application/json" →
      ∀ js, env.Marshal result = Except.ok js →
        (vulnerabilitiesHandler env rc ResponseWriter.fresh r).w =
          { header := [("Content-Type", "application/json")], status := some 200,
            sent := [("Content-Type", "application/json")], body := js } ∧
        (vulnerabilitiesHandler env rc ResponseWriter.fresh r).calls.getLast? =
          some (Call.Marshal result) ∧
        ∀ name data, Call.ExecuteTemplate name data ∉
          (vulnerabilitiesHandler env rc ResponseWriter.fresh r).calls) ∧
    (lookupStr r.Header "Accept-Encoding" ≠ "application/json" →
      (vulnerabilitiesHandler env rc ResponseWriter.fresh r).calls.getLast? =
        some (Call.ExecuteTemplate "vulns" (TemplateData.report result)) ∧
      (∀ v, Call.Marshal v ∉ (vulnerabilitiesHandler env rc ResponseWriter.fresh r).calls) ∧
      (vulnerabilitiesHandler env rc ResponseWriter.fresh r).w =
        match (env.ExecuteTemplate "vulns" (TemplateData.report result)).2 with
        | some _ =>
          ((env.ExecuteTemplate "vulns" (TemplateData.report result)).1.foldl
            ResponseWriter.Write ResponseWriter.fresh).WriteHeader 500
        | none =>
          (env.ExecuteTemplate "vulns" (TemplateData.report result)).1.foldl
            ResponseWriter.Write ResponseWriter.fresh) := by
  constructor
  · intro hacc js hjs
    unfold vulnerabilitiesHandler
    rcases hh : m1.History with _ | ⟨h0, rest⟩
    · rcases hscan with ⟨hc, hr⟩ | ⟨cl, hc, hv⟩
      · subst hr
        simp [hrepo, htag, hm, hh, hc, hacc, hjs, historyLoop, World.call, World.HeaderSet,
          World.Fprint, ResponseWriter.HeaderSet, ResponseWriter.Write,
          ResponseWriter.WriteHeader, ResponseWriter.fresh]
      · simp [hrepo, htag, hm, hh, hc, hv, hacc, hjs, historyLoop, World.call,
          World.HeaderSet, World.Fprint, ResponseWriter.HeaderSet, ResponseWriter.Write,
          ResponseWriter.WriteHeader, ResponseWriter.fresh]
    · obtain ⟨comp, hu⟩ := hdec h0 rest hh
      rcases hscan with ⟨hc, hr⟩ | ⟨cl, hc, hv⟩
      · subst hr
        simp [hrepo, htag, hm, hh, hu, hc, hacc, hjs, historyLoop, World.call,
          World.HeaderSet, World.Fprint, ResponseWriter.HeaderSet, ResponseWriter.Write,
          ResponseWriter.WriteHeader, ResponseWriter.fresh]
      · simp [hrepo, htag, hm, hh, hu, hc, hv, hacc, hjs, historyLoop, World.call,
          World.HeaderSet, World.Fprint, ResponseWriter.HeaderSet, ResponseWriter.Write,
          ResponseWriter.WriteHeader, ResponseWriter.fresh]
  · intro hacc
    unfold vulnerabilitiesHandler
    rcases hh : m1.History with _ | ⟨h0, rest⟩
    · rcases hscan with ⟨hc, hr⟩ | ⟨cl, hc, hv⟩
      · subst hr
        simp only [hrepo, htag, hm, hh, hc, hacc, historyLoop, World.call,
          World.ExecuteTemplate, if_false]
        cases env.ExecuteTemplate "vulns" (TemplateData.report (default : V)) with
        | mk chunks err => cases err <;> simp [World.WriteHeader]
      · simp only [hrepo, htag, hm, hh, hc, hv, hacc, historyLoop, World.call,
          World.ExecuteTemplate, if_false]
        cases env.ExecuteTemplate "vulns" (TemplateData.report result) with
        | mk chunks err => cases err <;> simp [World.WriteHeader]
    · obtain ⟨comp, hu⟩ := hdec h0 rest hh
      rcases hscan with ⟨hc, hr⟩ | ⟨cl, hc, hv⟩
      · subst hr
        simp only [hrepo, htag, hm, hh, hu, hc, hacc, historyLoop, World.call,
          World.ExecuteTemplate, if_false]
        cases env.ExecuteTemplate "vulns" (TemplateData.report (default : V)) with
        | mk chunks err => cases err <;> simp [World.WriteHeader]
      · simp only [hrepo, htag, hm, hh, hu, hc, hv, hacc, historyLoop, World.call,
          World.ExecuteTemplate, if_false]
        cases env.ExecuteTemplate "vulns" (TemplateData.report result) with
        | mk chunks err => cases err <;> simp [World.WriteHeader]

/-- Witness of C9: the tag "latest" of "library/alpine", asked for as JSON from the
controller with the scanner, and asked for without the header from the controller
without a scanner. -/
theorem vulnerabilitiesHandler_negotiation_witness :
    ((vulnerabilitiesHandler exampleEnv exampleRcScan ResponseWriter.fresh
          (exampleRequest "library/alpine" "latest" "application/json")).w =
        { header := [("Content-Type", "application/json")], status := some 200,
          sent := [("Content-Type", "application/json")], body := "CVE-2017-0001" } ∧
      (vulnerabilitiesHandler exampleEnv exampleRcScan ResponseWriter.fresh
          (exampleRequest "library/alpine" "latest" "application/json")).calls.getLast? =
        some (Call.Marshal ["CVE-2017-0001"]) ∧
      ∀ name data, Call.ExecuteTemplate name data ∉
        (vulnerabilitiesHandler exampleEnv exampleRcScan ResponseWriter.fresh
          (exampleRequest "library/alpine" "latest" "application/json")).calls) ∧
    ((vulnerabilitiesHandler exampleEnv exampleRc ResponseWriter.fresh
          (exampleRequest "library/alpine" "latest" "")).calls.getLast? =
        some (Call.ExecuteTemplate "vulns" (TemplateData.report [])) ∧
      (∀ v, Call.Marshal v ∉
        (vulnerabilitiesHandler exampleEnv exampleRc ResponseWriter.fresh
          (exampleRequest "library/alpine" "latest" "")).calls) ∧
      (vulnerabilitiesHandler exampleEnv exampleRc ResponseWriter.fresh
          (exampleRequest "library/alpine" "latest" "")).w =
        { header := [], status := some 200, sent := [], body := "vulns" }) :=
  ⟨(vulnerabilitiesHandler_negotiation exampleEnv exampleRcScan
      (exampleRequest "library/alpine" "latest" "application/json")
      { History := [⟨"layer-1"⟩, ⟨"garbled"⟩] } ["CVE-2017-0001"]
      (by decide) (by decide) rfl
      (fun h0 rest hh => by
        injection hh with h1 h2
        subst h1
        exact ⟨_, rfl⟩)
      (Or.inr ⟨exampleClair, rfl, rfl⟩)).1 (by decide) "CVE-2017-0001" rfl,
   (vulnerabilitiesHandler_negotiation exampleEnv exampleRc
      (exampleRequest "library/alpine" "latest" "")
      { History := [⟨"layer-1"⟩, ⟨"garbled"⟩] } []
      (by decide) (by decide) rfl
      (fun h0 rest hh => by
        injection hh with h1 h2
        subst h1
        exact ⟨_, rfl⟩)
      (Or.inl ⟨rfl, rfl⟩)).2 (by decide)⟩

/-- C8: the creation time comes from the first history entry only. The loop over
the history of a manifest goes on with the zero time when the history is empty,
goes on with the `created` field decoded from entry 0 when that entry decodes, and
returns with status 500 when it does not; it returns if and only if the history is
non-empty and entry 0 fails to decode, and the entries after index 0 never change
its outcome. In `tagsHandler` the record of a tag carries that time, and a failure
to decode entry 0 of the first failing tag ends the request with status 500, an
empty body and no template call. A round of the loop whose manifest is fetched and
whose scan (if any) succeeds goes on, writing nothing, with a record that carries
the zero time when the history is empty and the decoded time of entry 0 when it
decodes. On a run in which every tag succeeds the template "tags" is the last call,
and record `i` of its result carries the zero time when the manifest of tag `i`
has no history and the decoded `created` of its entry 0 otherwise; in particular,
without a scanner, a tag list whose manifests all have an empty history is
rendered with the zero time in every record. -/
theorem created_from_first_history_entry {V : Type} [Inhabited V] (env : Env V)
    (rc : registryController V) :
    (∀ (s : World V) (t : Time), historyLoop env [] s t = Flow.next s t) ∧
    (∀ (h0 : History) (rest : List History) (s : World V) (t : Time) (comp : v1Compatibility),
      env.Unmarshal h0.V1Compatibility = Except.ok comp →
      historyLoop env (h0 :: rest) s t =
        Flow.next (s.call (Call.Unmarshal h0.V1Compatibility)) comp.Created) ∧
    (∀ (h0 : History) (rest : List History) (s : World V) (t : Time) (err : Error),
      env.Unmarshal h0.V1Compatibility = Except.error err →
      historyLoop env (h0 :: rest) s t =
        Flow.ret ((s.call (Call.Unmarshal h0.V1Compatibility)).WriteHeader 500)) ∧
    (∀ (hist : List History) (s : World V) (t : Time),
      (∃ s1, historyLoop env hist s t = Flow.ret s1) ↔
        ∃ h0 rest err, hist = h0 :: rest ∧
          env.Unmarshal h0.V1Compatibility = Except.error err) ∧
    (∀ (h0 : History) (rest rest2 : List History) (s : World V) (t t2 : Time),
      historyLoop env (h0 :: rest) s t = historyLoop env (h0 :: rest2) s t2) ∧
    (∀ (repo tag : String) (s s1 : World V) (result result1 : AnalysisResult V)
        (m1 : SignedManifest),
      rc.reg.ManifestV1 repo tag = Except.ok m1 →
      tagsBody env rc repo tag s result = Flow.next s1 result1 →
      ∃ rp, result1.Repositories = result.Repositories ++ [rp] ∧
        (m1.History = [] → rp.Created = Time.zero) ∧
        (∀ h0 rest, m1.History = h0 :: rest →
          ∃ comp, env.Unmarshal h0.V1Compatibility = Except.ok comp ∧
            rp.Created = comp.Created)) ∧
    (∀ (r : Request) (pre : List String) (tag : String) (post : List String)
        (m1 : SignedManifest) (h0 : History) (rest : List History) (err : Error),
      lookupStr r.Vars "repo" ≠ "" →
      rc.reg.Tags (lookupStr r.Vars "repo") = Except.ok (pre ++ tag :: post) →
      (∀ t ∈ pre, tagSucceeds env rc (lookupStr r.Vars "repo") t = true) →
      rc.reg.ManifestV1 (lookupStr r.Vars "repo") tag = Except.ok m1 →
      m1.History = h0 :: rest →
      env.Unmarshal h0.V1Compatibility = Except.error err →
      (tagsHandler env rc ResponseWriter.fresh r).w =
          { header := [], status := some 500, sent := [], body := "" } ∧
        ∀ name data,
          Call.ExecuteTemplate name data ∉
            (tagsHandler env rc ResponseWriter.fresh r).calls) ∧
    (∀ (repo tag : String) (s : World V) (result : AnalysisResult V) (m1 : SignedManifest),
      rc.reg.ManifestV1 repo tag = Except.ok m1 →
      (∀ cl, rc.cl = some cl →
        ∃ vuln, cl.Vulnerabilities rc.reg repo tag m1 = Except.ok vuln) →
      (m1.History = [] →
        ∃ s1 result1 rp, tagsBody env rc repo tag s result = Flow.next s1 result1 ∧
          s1.w = s.w ∧ result1.Repositories = result.Repositories ++ [rp] ∧
          rp.Created = Time.zero) ∧
      (∀ h0 rest comp, m1.History = h0 :: rest →
        env.Unmarshal h0.V1Compatibility = Except.ok comp →
        ∃ s1 result1 rp, tagsBody env rc repo tag s result = Flow.next s1 result1 ∧
          s1.w = s.w ∧ result1.Repositories = result.Repositories ++ [rp] ∧
          rp.Created = comp.Created)) ∧
    (∀ (r : Request) (tags : List String),
      lookupStr r.Vars "repo" ≠ "" →
      rc.reg.Tags (lookupStr r.Vars "repo") = Except.ok tags →
      (∀ t ∈ tags, tagSucceeds env rc (lookupStr r.Vars "repo") t = true) →
      ∃ result : AnalysisResult V,
        (tagsHandler env rc ResponseWriter.fresh r).calls.getLast? =
          some (Call.ExecuteTemplate "tags" (TemplateData.analysis result)) ∧
        result.Repositories.length = tags.length ∧
        ∀ (i : Nat) (h : i < tags.length),
          ∃ rp m1, result.Repositories[i]? = some rp ∧
            rc.reg.ManifestV1 (lookupStr r.Vars "repo") tags[i] = Except.ok m1 ∧
            (m1.History = [] → rp.Created = Time.zero) ∧
            (∀ h0 rest, m1.History = h0 :: rest →
              ∃ comp, env.Unmarshal h0.V1Compatibility = Except.ok comp ∧
                rp.Created = comp.Created)) ∧
    (∀ (r : Request) (tags : List String),
      lookupStr r.Vars "repo" ≠ "" →
      rc.reg.Tags (lookupStr r.Vars "repo") = Except.ok tags →
      rc.cl = none →
      (∀ t ∈ tags, ∃ m1, rc.reg.ManifestV1 (lookupStr r.Vars "repo") t = Except.ok m1 ∧
        m1.History = []) →
      ∃ result : AnalysisResult V,
        (tagsHandler env rc ResponseWriter.fresh r).calls.getLast? =
          some (Call.ExecuteTemplate "tags" (TemplateData.analysis result)) ∧
        result.Repositories.length = tags.length ∧
        ∀ (i : Nat) (h : i < tags.length),
          ∃ rp, result.Repositories[i]? = some rp ∧ rp.Tag = tags[i] ∧
            rp.Created = Time.zero) := by
  refine ⟨fun s t => rfl, ?_, ?_, ?_, ?_, ?_, ?_, ?_, ?_, ?_⟩
  · intro h0 rest s t comp hu
    simp [historyLoop, hu]
  · intro h0 rest s t err hu
    simp [historyLoop, hu]
  · intro hist s t
    constructor
    · rintro ⟨s1, h⟩
      rcases hist with _ | ⟨h0, rest⟩
      · simp [historyLoop] at h
      · cases hu : env.Unmarshal h0.V1Compatibility with
        | error err => exact ⟨h0, rest, err, rfl, hu⟩
        | ok comp => simp [historyLoop, hu] at h
    · rintro ⟨h0, rest, err, rfl, hu⟩
      exact ⟨(s.call (Call.Unmarshal h0.V1Compatibility)).WriteHeader 500,
        by simp [historyLoop, hu]⟩
  · intro h0 rest rest2 s t t2
    simp [historyLoop]
  · intro repo tag s s1 result result1 m1 hm h
    obtain ⟨rp, hrun, hres, -⟩ := tagsBody_next env rc repo tag s s1 result result1 h
    obtain ⟨-, -, -, -, m2, hm2, hnil, hcons, -⟩ := tagRun_ok env rc repo tag rp hrun
    rw [hm] at hm2
    injection hm2 with hm2
    subst hm2
    exact ⟨rp, by rw [hres], hnil, hcons⟩
  · intro r pre tag post m1 h0 rest err hrepo htags hpre hm hh hu
    have he := tagRun_decode_error env rc _ tag m1 h0 rest err hm hh hu
    have hl := loopRun_first_error env rc (lookupStr r.Vars "repo") tag post _ he pre hpre
    constructor
    · rw [tagsHandler_eq env rc r _ hrepo htags]
      rcases hd : loopRun env rc (lookupStr r.Vars "repo") (pre ++ tag :: post)
        with ⟨cs, e1 | rps⟩
      · simp only [hd] at hl
        injection hl with hl
        subst hl
        rfl
      · simp [hd] at hl
    · intro name data hin
      obtain ⟨tags1, rps, h1, h2, -, -⟩ := tagsHandler_template_data env rc r name data hin
      rw [htags] at h1
      injection h1 with h1
      subst h1
      rw [hl] at h2
      cases h2
  · intro repo tag s result m1 hm hscan
    constructor
    · intro hh
      have hs := tagSucceeds_of_steps env rc repo tag m1 hm
        (fun h0 rest h => by rw [hh] at h; cases h) hscan
      obtain ⟨s1, result1, rp, hb, hrun, hres, hw⟩ :=
        tagsBody_next_of_tagSucceeds env rc repo tag s result hs
      obtain ⟨-, -, -, -, m2, hm2, hnil, -, -⟩ := tagRun_ok env rc repo tag rp hrun
      rw [hm] at hm2
      injection hm2 with hm2
      subst hm2
      exact ⟨s1, result1, rp, hb, hw, hres, hnil hh⟩
    · intro h0 rest comp hh hu
      have hs := tagSucceeds_of_steps env rc repo tag m1 hm
        (fun a b h => by
          rw [hh] at h
          injection h with h1 h2
          subst h1
          exact ⟨comp, hu⟩) hscan
      obtain ⟨s1, result1, rp, hb, hrun, hres, hw⟩ :=
        tagsBody_next_of_tagSucceeds env rc repo tag s result hs
      obtain ⟨-, -, -, -, m2, hm2, -, hcons, -⟩ := tagRun_ok env rc repo tag rp hrun
      rw [hm] at hm2
      injection hm2 with hm2
      subst hm2
      obtain ⟨comp2, hu2, hc2⟩ := hcons h0 rest hh
      rw [hu] at hu2
      injection hu2 with hu2
      subst hu2
      exact ⟨s1, result1, rp, hb, hw, hres, hc2⟩
  · intro r tags hrepo htags hall
    obtain ⟨result, h1, -, -, h2, h3⟩ := tagsHandler_success env rc r tags hrepo htags hall
    refine ⟨result, h1, h2, fun i h => ?_⟩
    obtain ⟨rp, hrp, hrun⟩ := h3 i h
    obtain ⟨-, -, -, -, m1, hm, hnil, hcons, -⟩ :=
      tagRun_ok env rc (lookupStr r.Vars "repo") tags[i] rp hrun
    exact ⟨rp, m1, hrp, hm, hnil, hcons⟩
  · intro r tags hrepo htags hcl hbare
    have hall : ∀ t ∈ tags, tagSucceeds env rc (lookupStr r.Vars "repo") t = true := by
      intro t ht
      obtain ⟨m1, hm, hh⟩ := hbare t ht
      exact tagSucceeds_of_steps env rc _ t m1 hm
        (fun h0 rest h => by rw [hh] at h; cases h)
        (fun cl hc => by rw [hcl] at hc; cases hc)
    obtain ⟨result, h1, -, -, h2, h3⟩ := tagsHandler_success env rc r tags hrepo htags hall
    refine ⟨result, h1, h2, fun i h => ?_⟩
    obtain ⟨rp, hrp, hrun⟩ := h3 i h
    obtain ⟨-, htag, -, -, m1, hm, hnil, -, -⟩ :=
      tagRun_ok env rc (lookupStr r.Vars "repo") tags[i] rp hrun
    obtain ⟨m2, hm2, hh⟩ := hbare tags[i] (List.getElem_mem h)
    rw [hm] at hm2
    injection hm2 with hm2
    subst hm2
    exact ⟨rp, hrp, htag, hnil hh⟩

/-- Witness of C8: a history whose entry 0 decodes and whose entry 1 does not gives
the time of entry 0; a history whose entry 0 does not decode returns with status
500 whatever follows; in "library/garbled" the tag "garbled" ends the request; the
two tags of "library/alpine" are rendered with the decoded time of entry 0; the
tag "bare" of "library/bare", whose manifest has no history, is rendered with the
zero time and status 200. -/
theorem created_from_first_history_entry_witness :
    (exampleEnv.Unmarshal (History.mk "layer-1").V1Compatibility =
        Except.ok { ID := "layer-1", Created := ⟨1700000000, 0⟩ } ∧
      historyLoop exampleEnv [⟨"layer-1"⟩, ⟨"garbled"⟩]
          ({ w := ResponseWriter.fresh, calls := [] } : World (List String)) Time.zero =
        Flow.next
          (({ w := ResponseWriter.fresh, calls := [] } : World (List String)).call
            (Call.Unmarshal (History.mk "layer-1").V1Compatibility))
          (v1Compatibility.mk "layer-1" ⟨1700000000, 0⟩).Created) ∧
    (exampleEnv.Unmarshal (History.mk "garbled").V1Compatibility =
        Except.error "invalid character" ∧
      historyLoop exampleEnv [⟨"garbled"⟩, ⟨"layer-0"⟩]
          ({ w := ResponseWriter.fresh, calls := [] } : World (List String)) Time.zero =
        Flow.ret
          ((({ w := ResponseWriter.fresh, calls := [] } : World (List String)).call
            (Call.Unmarshal (History.mk "garbled").V1Compatibility)).WriteHeader 500)) ∧
    ((tagsHandler exampleEnv exampleRc ResponseWriter.fresh
          (exampleRequest "library/garbled" "" "")).w =
        { header := [], status := some 500, sent := [], body := "" } ∧
      ∀ name data,
        Call.ExecuteTemplate name data ∉
          (tagsHandler exampleEnv exampleRc ResponseWriter.fresh
            (exampleRequest "library/garbled" "" "")).calls) ∧
    (∃ result : AnalysisResult (List String),
      (tagsHandler exampleEnv exampleRc ResponseWriter.fresh
          (exampleRequest "library/alpine" "" "")).calls.getLast? =
        some (Call.ExecuteTemplate "tags" (TemplateData.analysis result)) ∧
      result.Repositories.length = ["latest", "3.18"].length ∧
      ∀ (i : Nat) (h : i < ["latest", "3.18"].length),
        ∃ rp m1, result.Repositories[i]? = some rp ∧
          exampleRc.reg.ManifestV1
            (lookupStr (exampleRequest "library/alpine" "" "").Vars "repo")
            ["latest", "3.18"][i] = Except.ok m1 ∧
          (m1.History = [] → rp.Created = Time.zero) ∧
          (∀ h0 rest, m1.History = h0 :: rest →
            ∃ comp, exampleEnv.Unmarshal h0.V1Compatibility = Except.ok comp ∧
              rp.Created = comp.Created)) ∧
    (∃ result : AnalysisResult (List String),
      (tagsHandler exampleEnv exampleRc ResponseWriter.fresh
          (exampleRequest "library/bare" "" "")).calls.getLast? =
        some (Call.ExecuteTemplate "tags" (TemplateData.analysis result)) ∧
      result.Repositories.length = ["bare"].length ∧
      ∀ (i : Nat) (h : i < ["bare"].length),
        ∃ rp, result.Repositories[i]? = some rp ∧ rp.Tag = ["bare"][i] ∧
          rp.Created = Time.zero) ∧
    tagsHandler exampleEnv exampleRc ResponseWriter.fresh
        (exampleRequest "library/bare" "" "") =
      { w := { header := [], status := some 200, sent := [], body := "tags" },
        calls :=
          [Call.Tags "library/bare", Call.ManifestV1 "library/bare" "bare",
           Call.ExecuteTemplate "tags" (TemplateData.analysis
            { Repositories :=
                [{ Name := "library/bare", Tag := "bare", Created := Time.zero,
                   URI := "registry.example.com/library/bare:bare",
                   VulnerabilityReport := [] }],
              RegistryDomain := "registry.example.com", Name := "library/bare" })] } :=
  ⟨⟨rfl, (created_from_first_history_entry exampleEnv exampleRc).2.1
      ⟨"layer-1"⟩ [⟨"garbled"⟩] _ Time.zero _ rfl⟩,
   ⟨rfl, (created_from_first_history_entry exampleEnv exampleRc).2.2.1
      ⟨"garbled"⟩ [⟨"layer-0"⟩] _ Time.zero "invalid character" rfl⟩,
   (created_from_first_history_entry exampleEnv exampleRc).2.2.2.2.2.2.1
      (exampleRequest "library/garbled" "" "") ["1.0"] "garbled" ["missing"]
      { History := [⟨"garbled"⟩, ⟨"layer-0"⟩] } ⟨"garbled"⟩ [⟨"layer-0"⟩] "invalid character"
      (by decide) rfl (by decide) rfl rfl rfl,
   (created_from_first_history_entry exampleEnv exampleRc).2.2.2.2.2.2.2.2.1
      (exampleRequest "library/alpine" "" "") ["latest", "3.18"] (by decide) rfl (by decide),
   (created_from_first_history_entry exampleEnv exampleRc).2.2.2.2.2.2.2.2.2
      (exampleRequest "library/bare" "" "") ["bare"] (by decide) rfl rfl
      (fun t ht => by
        rw [List.mem_singleton] at ht
        subst ht
        exact ⟨{ History := [] }, rfl, rfl⟩),
   by decide⟩

end Claims

end Reg
